import Mathlib

/-!
Verification development for the btb-workflow-launcher client hub
(`src/execution/client_hub/`): a shallow embedding in Lean 4 of the task
ranking engine (`ranking.py`), the recurrence expander (`recurring.py`),
the webhook ingestion merge logic (`webhooks.py`) and the task update /
completion operations (`crud.py`), together with theorems settling the
behavioural claims about those components.

Modelling conventions:
- Python `float` scores are modelled as `ℚ`; the decimal literals used by
  the code (0.1, 0.2, 0.3, 0.8) and `round(x, 2)` are exact in `ℚ`.
- Calendar dates are modelled as `Int` day numbers counted from
  0001-01-01 (Python `date.toordinal() - 1`), so that Python's
  `date.weekday()` (Monday = 0 .. Sunday = 6) becomes `d % 7`.
- `datetime.now()` is an ambient effect in the code; the embedding passes
  the current day as an explicit `now : Int` parameter, and the age of a
  task in days is `now - created_at` (day granularity).
- The external rrule engine (`dateutil.rrulestr` / `rule.after`) is an
  external collaborator, modelled as a parameter
  `parse : String → Option (Int → Option Int)`: parsing a rule string
  either fails or yields the engine's "first occurrence strictly after"
  operation at date granularity.
- Database rows are modelled as records and the store as in-memory lists;
  store writes are explicit state passing.
-/

/-! ## Data model (`models.py`) -/

/-- `TaskStatus` enum from `models.py`. -/
inductive TaskStatus where
  | NOT_STARTED
  | IN_PROGRESS
  | PENDING
  | COMPLETED
deriving DecidableEq, Repr

/-- `TaskPriority` enum from `models.py`. -/
inductive TaskPriority where
  | P0
  | P1
  | P2
  | P3
deriving DecidableEq, Repr

/-- `TimeboxBucket` enum from `models.py`. -/
inductive TimeboxBucket where
  | MORNING
  | AFTERNOON
  | EVENING
  | NONE
deriving DecidableEq, Repr

/-- The slice of the `Client` model consumed by ranking: Pydantic
validates `default_priority_weight` with `ge=0, le=20`, so it is a `ℕ`
(the upper bound is carried as a hypothesis where needed). -/
structure ClientInfo where
  name : String
  default_priority_weight : ℕ
deriving DecidableEq, Repr

/-- The slice of `TaskWithSubtasks` consumed by `ranking.py`.
`due_date` and `created_at` are day numbers; `created_at` is a required
field of the `Task` model (every stored task has one). -/
structure RankTask where
  pinned_today : Bool
  priority : TaskPriority
  due_date : Option Int
  status : TaskStatus
  client : Option ClientInfo
  created_at : Int
deriving DecidableEq, Repr

/-- `RankingWeights` from `models.py` (nine numeric fields). -/
structure RankingWeights where
  overdue : ℚ
  due_today : ℚ
  priority_p0 : ℚ
  priority_p1 : ℚ
  priority_p2 : ℚ
  priority_p3 : ℚ
  in_progress : ℚ
  pending : ℚ
  client_weight_multiplier : ℚ
deriving DecidableEq, Repr

/-- The default values of `RankingWeights` in `models.py`. -/
def defaultRankingWeights : RankingWeights :=
  { overdue := 100
    due_today := 60
    priority_p0 := 50
    priority_p1 := 30
    priority_p2 := 15
    priority_p3 := 0
    in_progress := 10
    pending := -10
    client_weight_multiplier := 1 }

/-- The slice of the `Settings` singleton consumed by ranking: only
`ranking_weights` is read by `ranking.py`. -/
structure Settings where
  ranking_weights : RankingWeights
deriving DecidableEq, Repr

/-- `Settings` built over the default ranking weights. -/
def defaultSettings : Settings :=
  { ranking_weights := defaultRankingWeights }

/-! ## Ranking engine (`ranking.py`) -/

/-- Python `round(x, 2)` on the exact rational model. -/
def round2 (x : ℚ) : ℚ := (round (x * 100) : ℤ) / 100

/-- The priority term of the score: `priority_scores.get(task.priority,
weights.priority_p2)`.  The dict covers every `TaskPriority` constructor,
so the `priority_p2` fallback of `calculate_task_rank` is unreachable for
a validated task. -/
def priorityScore (weights : RankingWeights) : TaskPriority → ℚ
  | TaskPriority.P0 => weights.priority_p0
  | TaskPriority.P1 => weights.priority_p1
  | TaskPriority.P2 => weights.priority_p2
  | TaskPriority.P3 => weights.priority_p3

/-- The due-date urgency term of `calculate_task_rank` (step 3). -/
def dueDateScore (weights : RankingWeights) (dueDate : Option Int) (today : Int) : ℚ :=
  match dueDate with
  | none => 0
  | some dd =>
    let days_until : Int := dd - today
    if days_until < 0 then
      weights.overdue + ((min |days_until| 30 : Int) : ℚ) * 2
    else if days_until = 0 then
      weights.due_today
    else if days_until ≤ 3 then
      weights.due_today * (0.8 - (days_until : ℚ) * 0.2)
    else if days_until ≤ 7 then
      weights.due_today * 0.3
    else 0

/-- The status modifier term of `calculate_task_rank` (step 4). -/
def statusScore (weights : RankingWeights) : TaskStatus → ℚ
  | TaskStatus.IN_PROGRESS => weights.in_progress
  | TaskStatus.PENDING => weights.pending
  | _ => 0

/-- The client-priority term of `calculate_task_rank` (step 5); the Python
condition `task.client and task.client.default_priority_weight` is falsy
when the weight is `0`. -/
def clientScore (weights : RankingWeights) (client : Option ClientInfo) : ℚ :=
  match client with
  | some c =>
    if c.default_priority_weight ≠ 0 then
      (c.default_priority_weight : ℚ) * weights.client_weight_multiplier
    else 0
  | none => 0

/-- The age-bonus term of `calculate_task_rank` (step 6):
`min(age_days * 0.1, 5)` with `age_days = (now - created_at).days`. -/
def ageScore (createdAt now : Int) : ℚ :=
  min (((now - createdAt : Int) : ℚ) * 0.1) 5

/-- `calculate_task_rank(task, settings, today)` from `ranking.py`:
the additive score, rounded to two decimal digits.  `now` is the ambient
`datetime.now()` instant used by the age bonus. -/
def calculate_task_rank (task : RankTask) (settings : Settings)
    (today : Int) (now : Int) : ℚ :=
  let weights := settings.ranking_weights
  let score : ℚ :=
    (if task.pinned_today then 1000 else 0)
    + priorityScore weights task.priority
    + dueDateScore weights task.due_date today
    + statusScore weights task.status
    + clientScore weights task.client
    + ageScore task.created_at now
  round2 score

/-- One entry of the `components` list returned by `explain_rank`; the
human-readable `reason` strings are presentational and omitted. -/
structure RankComponent where
  factor : String
  score : ℚ
deriving DecidableEq, Repr

/-- The breakdown dictionary returned by `explain_rank`. -/
structure RankBreakdown where
  total : ℚ
  components : List RankComponent
deriving DecidableEq, Repr

/-- The Python truthiness test `task.client and
task.client.default_priority_weight` guarding the client component. -/
def hasClientWeight : Option ClientInfo → Bool
  | some c => decide (c.default_priority_weight ≠ 0)
  | none => false

/-- `explain_rank(task, settings, today)` from `ranking.py`; each
`if`-block of the source (which appends a component and increments the
running total under the same condition) is rendered as a guarded addend
of `total` plus a guarded singleton of `components`.  Note two
divergences from `calculate_task_rank` present in the source: the
priority dict fallback is `0` instead of `weights.priority_p2`
(unreachable for a validated `TaskPriority`), and there is no age-bonus
component at all.  A due-date score of `0` can only arise with
`due_date = none` excluded, so the source's `if task.due_date:` guard is
subsumed by `due_score ≠ 0`. -/
def explain_rank (task : RankTask) (settings : Settings) (today : Int) :
    RankBreakdown :=
  let weights := settings.ranking_weights
  let priority_score := priorityScore weights task.priority
  let due_score := dueDateScore weights task.due_date today
  let status_score := statusScore weights task.status
  let client_score := clientScore weights task.client
  let total : ℚ :=
    (if task.pinned_today then 1000 else 0)
    + priority_score
    + (if due_score ≠ 0 then due_score else 0)
    + (if status_score ≠ 0 then status_score else 0)
    + client_score
  let components : List RankComponent :=
    (if task.pinned_today then [{ factor := "Pinned", score := 1000 }] else [])
    ++ [{ factor := "Priority", score := priority_score }]
    ++ (if due_score ≠ 0 then [{ factor := "Due Date", score := round2 due_score }]
        else [])
    ++ (if status_score ≠ 0 then [{ factor := "Status", score := status_score }]
        else [])
    ++ (if hasClientWeight task.client then
          [{ factor := "Client Priority", score := round2 client_score }]
        else [])
  { total := round2 total, components := components }

/-- Stable descending insertion: place `x` before the first element whose
key is not strictly greater than `x`'s.  This reproduces the order of
Python's stable `sorted(..., reverse=True)`. -/
def insertDesc {α : Type} (key : α → ℚ) (x : α) : List α → List α
  | [] => [x]
  | y :: ys => if key x < key y then y :: insertDesc key x ys else x :: y :: ys

/-- Stable sort by descending key (the behaviour of Python's
`sorted(tasks, key=..., reverse=True)`). -/
def stableSortDesc {α : Type} (key : α → ℚ) (l : List α) : List α :=
  l.foldr (insertDesc key) []

/-- `rank_tasks(tasks, settings, today)` from `ranking.py`: every task's
`rank_score` is set to `calculate_task_rank` (so the sort key
`t.rank_score or 0` is exactly that score) and the list is stably sorted
by descending score. -/
def rank_tasks (tasks : List RankTask) (settings : Settings)
    (today : Int) (now : Int) : List RankTask :=
  stableSortDesc (fun t => calculate_task_rank t settings today now) tasks

/-! ## Webhook task ingestion (`webhooks.py`) -/

/-- `ActorType` enum from `models.py`. -/
inductive ActorType where
  | MANUAL
  | N8N
  | SYSTEM
deriving DecidableEq, Repr

/-- The slice of a stored `tasks` row read and written by the webhook
upsert and by `crud.update_task`.  `raw_source_payload` is kept opaque. -/
structure HubTask where
  id : ℕ
  title : String
  description : Option String
  status : TaskStatus
  priority : TaskPriority
  due_date : Option Int
  due_time : Option ℕ
  start_date : Option Int
  timebox_bucket : TimeboxBucket
  estimated_minutes : Option Int
  waiting_on : Option String
  blocked_reason : Option String
  tags : List String
  labels : List String
  raw_source_payload : Option String
  manually_edited : Bool
  manual_fields : List String
  idempotency_key : Option String
  source_type : String
  source_id : Option String
deriving DecidableEq, Repr

/-- A task item of the webhook upsert payload (`WebhookTask` in
`models.py`): `idempotency_key` and `source_id` are required strings,
`status` and `priority` have non-null defaults. -/
structure WebhookTaskIn where
  idempotency_key : String
  source_type : String
  source_id : String
  title : String
  description : Option String
  status : TaskStatus
  priority : TaskPriority
  due_date : Option Int
  due_time : Option ℕ
  start_date : Option Int
  timebox_bucket : Option TimeboxBucket
  estimated_minutes : Option Int
  waiting_on : Option String
  blocked_reason : Option String
  tags : List String
  labels : List String
  raw_source_payload : Option String
deriving DecidableEq, Repr

/-- Python's `list(set(a + b))` up to element order: the embedding fixes
the canonical order `(a ++ b).dedup`; theorems about it only state
membership, since the Python set order is unspecified. -/
def setUnion (a b : List String) : List String := (a ++ b).dedup

/-- The update dictionary applied by `upsert_tasks` to an existing task
(`webhooks.py` lines 102-161), expressed as the resulting row.
When `manually_edited` is set, each mapped field updates only if it is
not in `manual_fields` and the incoming value is non-null, and tags and
labels are merged as a set union; otherwise every mapped field (including
`tags` and `labels`) is overwritten with the incoming value, with
`timebox_bucket` defaulting to `NONE`. -/
def applyWebhookUpdate (existing : HubTask) (inc : WebhookTaskIn) : HubTask :=
  if existing.manually_edited then
    let pf := existing.manual_fields
    { existing with
      title := if "title" ∉ pf then inc.title else existing.title
      description :=
        if "description" ∉ pf ∧ inc.description.isSome then inc.description
        else existing.description
      status := if "status" ∉ pf then inc.status else existing.status
      priority := if "priority" ∉ pf then inc.priority else existing.priority
      due_date :=
        if "due_date" ∉ pf ∧ inc.due_date.isSome then inc.due_date
        else existing.due_date
      due_time :=
        if "due_time" ∉ pf ∧ inc.due_time.isSome then inc.due_time
        else existing.due_time
      timebox_bucket :=
        match inc.timebox_bucket with
        | some b => if "timebox_bucket" ∉ pf then b else existing.timebox_bucket
        | none => existing.timebox_bucket
      estimated_minutes :=
        if "estimated_minutes" ∉ pf ∧ inc.estimated_minutes.isSome then
          inc.estimated_minutes
        else existing.estimated_minutes
      waiting_on :=
        if "waiting_on" ∉ pf ∧ inc.waiting_on.isSome then inc.waiting_on
        else existing.waiting_on
      blocked_reason :=
        if "blocked_reason" ∉ pf ∧ inc.blocked_reason.isSome then inc.blocked_reason
        else existing.blocked_reason
      tags := if inc.tags ≠ [] then setUnion existing.tags inc.tags else existing.tags
      labels := if inc.labels ≠ [] then setUnion existing.labels inc.labels
                else existing.labels }
  else
    { existing with
      title := inc.title
      description := inc.description
      status := inc.status
      priority := inc.priority
      due_date := inc.due_date
      due_time := inc.due_time
      start_date := inc.start_date
      timebox_bucket := inc.timebox_bucket.getD TimeboxBucket.NONE
      estimated_minutes := inc.estimated_minutes
      waiting_on := inc.waiting_on
      blocked_reason := inc.blocked_reason
      tags := inc.tags
      labels := inc.labels
      raw_source_payload := inc.raw_source_payload }

/-- Existing-task lookup of `upsert_tasks`: by `idempotency_key` when the
incoming key is non-empty, falling back to `(source_type, source_id)`. -/
def findExisting (db : List HubTask) (inc : WebhookTaskIn) : Option HubTask :=
  let byKey :=
    if inc.idempotency_key ≠ "" then
      db.find? (fun t => decide (t.idempotency_key = some inc.idempotency_key))
    else none
  match byKey with
  | some t => some t
  | none =>
    if inc.source_id ≠ "" then
      db.find? (fun t =>
        decide (t.source_type = inc.source_type ∧ t.source_id = some inc.source_id))
    else none

/-- A new task row built from a webhook item (the `TaskCreate` call of
`upsert_tasks`, restricted to the modelled columns; client matching and
duplicate detection only affect columns outside this slice). -/
def taskFromWebhook (newId : ℕ) (inc : WebhookTaskIn) : HubTask :=
  { id := newId
    title := inc.title
    description := inc.description
    status := inc.status
    priority := inc.priority
    due_date := inc.due_date
    due_time := inc.due_time
    start_date := inc.start_date
    timebox_bucket := inc.timebox_bucket.getD TimeboxBucket.NONE
    estimated_minutes := inc.estimated_minutes
    waiting_on := inc.waiting_on
    blocked_reason := inc.blocked_reason
    tags := inc.tags
    labels := inc.labels
    raw_source_payload := inc.raw_source_payload
    manually_edited := false
    manual_fields := []
    idempotency_key := if inc.idempotency_key = "" then none else some inc.idempotency_key
    source_type := inc.source_type
    source_id := if inc.source_id = "" then none else some inc.source_id }

/-- The structured per-batch tally returned by `upsert_tasks`. -/
structure UpsertResults where
  created : ℕ
  updated : ℕ
  skipped : ℕ
  errors : List String
  task_ids : List ℕ
deriving DecidableEq, Repr

/-- A fresh task id for the store model. -/
def freshId (db : List HubTask) : ℕ := (db.map HubTask.id).foldr max 0 + 1

/-- `upsert_tasks` (`webhooks.py` lines 75-258): per-item upsert with a
structured tally.  The embedding is exception-free, so the per-item
`except` branch (which appends to `errors` instead of aborting the batch)
is never taken and `errors` stays empty. -/
def upsertStep (acc : UpsertResults × List HubTask) (inc : WebhookTaskIn) :
    UpsertResults × List HubTask :=
  let (res, cur) := acc
  match findExisting cur inc with
  | some existing =>
    let updated := applyWebhookUpdate existing inc
    (⟨res.created, res.updated + 1, res.skipped, res.errors,
      res.task_ids ++ [existing.id]⟩,
     cur.map (fun t => if t.id = existing.id then updated else t))
  | none =>
    let nid := freshId cur
    (⟨res.created + 1, res.updated, res.skipped, res.errors,
      res.task_ids ++ [nid]⟩,
     cur ++ [taskFromWebhook nid inc])

def upsert_tasks (db : List HubTask) (items : List WebhookTaskIn) :
    UpsertResults × List HubTask :=
  items.foldl upsertStep (⟨0, 0, 0, [], []⟩, db)

/-! ## Task update and completion (`crud.py`) -/

/-- The slice of a stored task consumed by the completion invariant:
its status, the statuses of its subtasks, its completion timestamp, and
the manual-edit protection fields consulted by `update_task`. -/
structure StoredTask where
  status : TaskStatus
  subtasks : List TaskStatus
  completed_at : Option Int
  manually_edited : Bool
  manual_fields : List String
deriving DecidableEq, Repr

/-- `crud.update_task` restricted to the `status` field (the only field
relevant to the completion invariant): N8N updates respect manual-edit
protection, manual updates record `status` into `manual_fields`, and a
transition into `COMPLETED` stamps `completed_at`.  No subtask check is
performed on this path. -/
def update_task (t : StoredTask) (newStatus : Option TaskStatus)
    (actor : ActorType) (nowT : Int) : StoredTask :=
  let upd :=
    if actor = ActorType.N8N ∧ t.manually_edited ∧ "status" ∈ t.manual_fields then
      none
    else newStatus
  match upd with
  | none => t
  | some s =>
    let t1 := { t with status := s }
    let t2 :=
      if actor = ActorType.MANUAL then
        { t1 with manually_edited := true
                  manual_fields := (t.manual_fields ++ ["status"]).dedup }
      else t1
    if s = TaskStatus.COMPLETED ∧ t.status ≠ TaskStatus.COMPLETED then
      { t2 with completed_at := some nowT }
    else t2

/-- `crud.complete_task`: rejects with a descriptive reason (and no state
change) when any subtask is not `COMPLETED`; otherwise delegates to
`update_task` with status `COMPLETED`. -/
def complete_task (t : StoredTask) (actor : ActorType) (nowT : Int) :
    Option StoredTask × Option String :=
  let incomplete := t.subtasks.filter (fun s => decide (s ≠ TaskStatus.COMPLETED))
  if incomplete.length ≠ 0 then
    (none,
     some ("Cannot complete task with " ++ toString incomplete.length
           ++ " incomplete subtask(s)"))
  else
    (some (update_task t (some TaskStatus.COMPLETED) actor nowT), none)

/-! ## Recurrence expansion (`recurring.py`) -/

/-- The slice of a recurring-template `tasks` row consumed by
`generate_recurring_instances` / `generate_instances_for_task`. -/
structure RecTemplate where
  id : ℕ
  is_recurring : Bool
  archived : Bool
  recurrence_rule : Option String
  recurrence_end_date : Option Int
  recurrence_skip_weekends : Bool
  next_occurrence_at : Option Int
deriving DecidableEq, Repr

/-- The store state seen by recurrence expansion: the recurring templates
and the set of existing instances, keyed by
`(parent_recurring_task_id, due_date)`.  Generated instances have
`is_recurring = false`, so the two populations are disjoint in the
template query and are modelled as separate lists. -/
structure RecDB where
  templates : List RecTemplate
  instances : List (ℕ × Int)
deriving DecidableEq, Repr

/-- Python `date.weekday()` on day numbers counted from 0001-01-01
(a Monday): `0` = Monday .. `6` = Sunday. -/
def weekday (d : Int) : Int := d % 7

/-- The end-date break test of the cursor loop: `recurring.py` line 109,
`if end_date and current > end_date: break`. -/
def endBreak (endDate : Option Int) (current : Int) : Bool :=
  match endDate with
  | some ed => decide (ed < current)
  | none => false

/-- The per-template cursor loop of `generate_instances_for_task`
(`recurring.py` lines 107-142), fuel-indexed: returns `none` when the
fuel runs out before the loop exits, and otherwise the list of created
instance dates together with the updated instance set.  Each iteration:
end-date break, weekend skip to the following Monday, existing-instance
check before creation, and cursor advance by the rule engine's
`after` operation. -/
def genLoop (after : Int → Option Int) (endDate : Option Int) (skipW : Bool)
    (tid : ℕ) (h : Int) :
    ℕ → Int → List (ℕ × Int) → Option (List Int × List (ℕ × Int))
  | 0, _, _ => none
  | fuel + 1, current, inst =>
    if current ≤ h then
      if endBreak endDate current then
        some ([], inst)
      else if skipW ∧ 5 ≤ weekday current then
        genLoop after endDate skipW tid h fuel (current + (7 - weekday current)) inst
      else if (tid, current) ∈ inst then
        -- an instance for this (parent id, due date) already exists: skip
        match after current with
        | some nx => genLoop after endDate skipW tid h fuel nx inst
        | none => some ([], inst)
      else
        -- create the instance, then advance the cursor by the rule
        match after current with
        | some nx =>
          match genLoop after endDate skipW tid h fuel nx ((tid, current) :: inst) with
          | some (created, inst3) => some (current :: created, inst3)
          | none => none
        | none => some ([current], (tid, current) :: inst)
    else some ([], inst)

/-- Write `next_occurrence_at := v` on every template row matching `tid`
(the SQL `update ... eq("id", ...)` of `recurring.py` lines 150-152). -/
def setNext (db : RecDB) (tid : ℕ) (v : Int) : RecDB :=
  { db with
    templates := db.templates.map (fun t =>
      if t.id = tid then { t with next_occurrence_at := some v } else t) }

/-- `generate_instances_for_task(db, recurring_task, up_to_date)`
(`recurring.py` lines 58-156): no-op when the rule string is absent,
empty, or fails to parse; otherwise runs the cursor loop from the stored
`next_occurrence_at` (or today), then recomputes and persists the
template's `next_occurrence_at` as the rule's first occurrence strictly
after the horizon, when one exists. -/
def generate_instances_for_task (parse : String → Option (Int → Option Int))
    (todayD : Int) (h : Int) (fuel : ℕ) (tmpl : RecTemplate) (db : RecDB) :
    Option (List Int × RecDB) :=
  match tmpl.recurrence_rule with
  | none => some ([], db)
  | some s =>
    if s = "" then some ([], db)
    else
      match parse s with
      | none => some ([], db)
      | some after =>
        let current := (tmpl.next_occurrence_at).getD todayD
        match genLoop after tmpl.recurrence_end_date tmpl.recurrence_skip_weekends
            tmpl.id h fuel current db.instances with
        | none => none
        | some (created, inst2) =>
          let db2 : RecDB := { templates := db.templates, instances := inst2 }
          let db3 :=
            match after h with
            | some nx => setNext db2 tmpl.id nx
            | none => db2
          some (created, db3)

/-- The outer template filter of `generate_recurring_instances`:
`is_recurring = true`, not archived, `next_occurrence_at <= up_to_date`
(a SQL `lte`, which excludes rows with a null `next_occurrence_at`). -/
def selTest (h : Int) (t : RecTemplate) : Bool :=
  t.is_recurring && !t.archived &&
    (match t.next_occurrence_at with
     | some n => decide (n ≤ h)
     | none => false)

/-- The per-template iteration of `generate_recurring_instances` over the
snapshot of selected templates, threading the store state and
accumulating `(template id, due date)` pairs of created instances. -/
def processAll (parse : String → Option (Int → Option Int))
    (todayD : Int) (h : Int) (fuel : ℕ) :
    List RecTemplate → RecDB → Option (List (ℕ × Int) × RecDB)
  | [], db => some ([], db)
  | t :: ts, db =>
    match generate_instances_for_task parse todayD h fuel t db with
    | none => none
    | some (cr, db2) =>
      match processAll parse todayD h fuel ts db2 with
      | none => none
      | some (crs, db3) => some (cr.map (fun d => (t.id, d)) ++ crs, db3)

/-- `generate_recurring_instances(db, up_to_date)` (`recurring.py` lines
21-55): select the candidate templates once, then expand each in turn. -/
def generate_recurring_instances (parse : String → Option (Int → Option Int))
    (todayD : Int) (h : Int) (fuel : ℕ) (db : RecDB) :
    Option (List (ℕ × Int) × RecDB) :=
  processAll parse todayD h fuel (db.templates.filter (selTest h)) db

/-! ## Helper lemmas: rounding, score bounds, stable sort -/

theorem ite_ne_zero_self (x : ℚ) : (if x ≠ 0 then x else 0) = x := by
  by_cases h : x = 0 <;> simp [h]

theorem round2_mono {x y : ℚ} (h : x ≤ y) : round2 x ≤ round2 y := by
  unfold round2
  have hr : round (x * 100) ≤ round (y * 100) := by
    rw [round_eq, round_eq]
    exact Int.floor_mono (by linarith)
  have hc : ((round (x * 100) : ℤ) : ℚ) ≤ ((round (y * 100) : ℤ) : ℚ) :=
    Int.cast_le.mpr hr
  linarith

theorem round2_intCast (z : ℤ) : round2 (z : ℚ) = (z : ℚ) := by
  unfold round2
  have hz : (z : ℚ) * 100 = ((z * 100 : ℤ) : ℚ) := by push_cast; ring
  rw [hz, round_intCast]
  push_cast
  ring

theorem priorityScore_nonneg (p : TaskPriority) :
    0 ≤ priorityScore defaultRankingWeights p := by
  cases p <;> norm_num [priorityScore, defaultRankingWeights]

theorem priorityScore_le (p : TaskPriority) :
    priorityScore defaultRankingWeights p ≤ 50 := by
  cases p <;> norm_num [priorityScore, defaultRankingWeights]

theorem statusScore_ge (s : TaskStatus) :
    -10 ≤ statusScore defaultRankingWeights s := by
  cases s <;> norm_num [statusScore, defaultRankingWeights]

theorem statusScore_le (s : TaskStatus) :
    statusScore defaultRankingWeights s ≤ 10 := by
  cases s <;> norm_num [statusScore, defaultRankingWeights]

theorem dueDateScore_nonneg (dd : Option Int) (today : Int) :
    0 ≤ dueDateScore defaultRankingWeights dd today := by
  match dd with
  | none => simp [dueDateScore]
  | some d =>
    simp only [dueDateScore, defaultRankingWeights]
    split_ifs with h1 h2 h3 h4
    · have h0 : (0 : ℤ) ≤ min |d - today| 30 := le_min (abs_nonneg _) (by norm_num)
      have h0q : (0 : ℚ) ≤ ((min |d - today| 30 : ℤ) : ℚ) := by exact_mod_cast h0
      linarith
    · norm_num
    · have hge : (1 : ℤ) ≤ d - today := by omega
      have hleq : ((d - today : ℤ) : ℚ) ≤ 3 := by exact_mod_cast h3
      have hgeq : (1 : ℚ) ≤ ((d - today : ℤ) : ℚ) := by exact_mod_cast hge
      have hfac : (0 : ℚ) ≤ 0.8 - ((d - today : ℤ) : ℚ) * 0.2 := by linarith
      nlinarith
    · norm_num
    · norm_num

theorem dueDateScore_le (dd : Option Int) (today : Int) :
    dueDateScore defaultRankingWeights dd today ≤ 160 := by
  match dd with
  | none => simp [dueDateScore]
  | some d =>
    simp only [dueDateScore, defaultRankingWeights]
    split_ifs with h1 h2 h3 h4
    · have h0 : min |d - today| 30 ≤ (30 : ℤ) := min_le_right _ _
      have h0q : ((min |d - today| 30 : ℤ) : ℚ) ≤ 30 := by exact_mod_cast h0
      linarith
    · norm_num
    · have hge : (1 : ℤ) ≤ d - today := by omega
      have hgeq : (1 : ℚ) ≤ ((d - today : ℤ) : ℚ) := by exact_mod_cast hge
      nlinarith
    · norm_num
    · norm_num

theorem clientScore_nonneg (cl : Option ClientInfo) :
    0 ≤ clientScore defaultRankingWeights cl := by
  match cl with
  | none => simp [clientScore]
  | some c =>
    simp only [clientScore, defaultRankingWeights]
    split_ifs
    · positivity
    · norm_num

/-- The Pydantic bound `default_priority_weight <= 20`, as a decidable
per-task predicate. -/
def clientWeightLe20 (t : RankTask) : Bool :=
  match t.client with
  | some c => decide (c.default_priority_weight ≤ 20)
  | none => true

theorem clientScore_le {t : RankTask} (h : clientWeightLe20 t = true) :
    clientScore defaultRankingWeights t.client ≤ 20 := by
  match hcl : t.client with
  | none => simp [clientScore]
  | some c =>
    have hw : c.default_priority_weight ≤ 20 := by
      have := h
      rw [clientWeightLe20, hcl] at this
      exact of_decide_eq_true this
    simp only [clientScore, defaultRankingWeights]
    split_ifs
    · have : ((c.default_priority_weight : ℕ) : ℚ) ≤ 20 := by exact_mod_cast hw
      linarith
    · norm_num

theorem ageScore_le (createdAt now : Int) : ageScore createdAt now ≤ 5 := by
  unfold ageScore
  exact min_le_right _ _

theorem ageScore_nonneg {createdAt now : Int} (h : createdAt ≤ now) :
    0 ≤ ageScore createdAt now := by
  unfold ageScore
  apply le_min
  · have h0 : (0 : ℤ) ≤ now - createdAt := by omega
    have h0q : (0 : ℚ) ≤ ((now - createdAt : ℤ) : ℚ) := by exact_mod_cast h0
    nlinarith
  · norm_num

theorem rank_pinned_ge_990 (t : RankTask) (today now : Int)
    (hp : t.pinned_today = true) (hage : t.created_at ≤ now) :
    (990 : ℚ) ≤ calculate_task_rank t defaultSettings today now := by
  unfold calculate_task_rank
  simp only [defaultSettings, hp, if_true]
  have h1 := priorityScore_nonneg t.priority
  have h2 := dueDateScore_nonneg t.due_date today
  have h3 := statusScore_ge t.status
  have h4 := clientScore_nonneg t.client
  have h5 := ageScore_nonneg hage
  have h990 : round2 ((990 : ℤ) : ℚ) = ((990 : ℤ) : ℚ) := round2_intCast 990
  have hsum : ((990 : ℤ) : ℚ) ≤
      1000 + priorityScore defaultRankingWeights t.priority
        + dueDateScore defaultRankingWeights t.due_date today
        + statusScore defaultRankingWeights t.status
        + clientScore defaultRankingWeights t.client
        + ageScore t.created_at now := by
    push_cast
    linarith
  calc (990 : ℚ) = round2 ((990 : ℤ) : ℚ) := by rw [h990]; norm_num
    _ ≤ _ := round2_mono hsum

theorem rank_unpinned_le_245 (t : RankTask) (today now : Int)
    (hp : t.pinned_today = false) (hcl : clientWeightLe20 t = true) :
    calculate_task_rank t defaultSettings today now ≤ 245 := by
  unfold calculate_task_rank
  simp only [defaultSettings, hp, if_false]
  have h1 := priorityScore_le t.priority
  have h2 := dueDateScore_le t.due_date today
  have h3 := statusScore_le t.status
  have h4 := clientScore_le hcl
  have h5 := ageScore_le t.created_at now
  have h245 : round2 ((245 : ℤ) : ℚ) = ((245 : ℤ) : ℚ) := round2_intCast 245
  have hsum : 0 + priorityScore defaultRankingWeights t.priority
        + dueDateScore defaultRankingWeights t.due_date today
        + statusScore defaultRankingWeights t.status
        + clientScore defaultRankingWeights t.client
        + ageScore t.created_at now ≤ ((245 : ℤ) : ℚ) := by
    push_cast
    linarith
  calc round2 _ ≤ round2 ((245 : ℤ) : ℚ) := round2_mono hsum
    _ = (245 : ℚ) := by rw [h245]; norm_num

theorem mem_insertDesc {α : Type} (key : α → ℚ) (x : α) (l : List α) (a : α) :
    a ∈ insertDesc key x l ↔ a = x ∨ a ∈ l := by
  induction l with
  | nil => simp [insertDesc]
  | cons y ys ih =>
    simp only [insertDesc]
    by_cases hc : key x < key y
    · rw [if_pos hc]
      simp only [List.mem_cons, ih]
      tauto
    · rw [if_neg hc]
      simp only [List.mem_cons]

theorem pairwise_insertDesc {α : Type} (key : α → ℚ) (x : α) {l : List α}
    (hl : l.Pairwise (fun a b => key b ≤ key a)) :
    (insertDesc key x l).Pairwise (fun a b => key b ≤ key a) := by
  induction l with
  | nil => simp [insertDesc]
  | cons y ys ih =>
    rcases List.pairwise_cons.mp hl with ⟨hy, hys⟩
    simp only [insertDesc]
    by_cases hc : key x < key y
    · rw [if_pos hc]
      refine List.pairwise_cons.mpr ⟨?_, ih hys⟩
      intro b hb
      rcases (mem_insertDesc key x ys b).mp hb with rfl | hbys
      · exact le_of_lt hc
      · exact hy b hbys
    · rw [if_neg hc]
      refine List.pairwise_cons.mpr ⟨?_, hl⟩
      intro b hb
      rcases List.mem_cons.mp hb with rfl | hbys
      · exact le_of_not_lt hc
      · exact le_trans (hy b hbys) (le_of_not_lt hc)

theorem sorted_stableSortDesc {α : Type} (key : α → ℚ) (l : List α) :
    (stableSortDesc key l).Pairwise (fun a b => key b ≤ key a) := by
  induction l with
  | nil => simp [stableSortDesc]
  | cons x xs ih =>
    simpa [stableSortDesc] using pairwise_insertDesc key x ih

theorem mem_stableSortDesc {α : Type} (key : α → ℚ) (l : List α) (a : α) :
    a ∈ stableSortDesc key l ↔ a ∈ l := by
  induction l with
  | nil => simp [stableSortDesc]
  | cons x xs ih =>
    show a ∈ insertDesc key x (stableSortDesc key xs) ↔ _
    rw [mem_insertDesc]
    simp only [List.mem_cons, ih]

theorem filter_insertDesc_eq {α : Type} (key : α → ℚ) (x : α) (l : List α)
    (v : ℚ) (h : key x = v) :
    (insertDesc key x l).filter (fun t => decide (key t = v)) =
      x :: l.filter (fun t => decide (key t = v)) := by
  induction l with
  | nil => simp [insertDesc, h]
  | cons y ys ih =>
    simp only [insertDesc]
    by_cases hc : key x < key y
    · rw [if_pos hc]
      have hy : ¬ (key y = v) := by
        intro he
        rw [he] at hc
        rw [← h] at hc
        exact lt_irrefl _ hc
      simp only [List.filter_cons]
      simp [hy, ih]
    · rw [if_neg hc]
      simp [List.filter_cons, h]

theorem filter_insertDesc_ne {α : Type} (key : α → ℚ) (x : α) (l : List α)
    (v : ℚ) (h : ¬ (key x = v)) :
    (insertDesc key x l).filter (fun t => decide (key t = v)) =
      l.filter (fun t => decide (key t = v)) := by
  induction l with
  | nil => simp [insertDesc, h]
  | cons y ys ih =>
    simp only [insertDesc]
    by_cases hc : key x < key y
    · rw [if_pos hc]
      by_cases hv : key y = v <;> simp [List.filter_cons, hv, ih]
    · rw [if_neg hc]
      simp [List.filter_cons, h]

theorem filter_stableSortDesc {α : Type} (key : α → ℚ) (l : List α) (v : ℚ) :
    (stableSortDesc key l).filter (fun t => decide (key t = v)) =
      l.filter (fun t => decide (key t = v)) := by
  induction l with
  | nil => simp [stableSortDesc]
  | cons x xs ih =>
    show (insertDesc key x (stableSortDesc key xs)).filter _ = _
    by_cases h : key x = v
    · rw [filter_insertDesc_eq key x _ v h, ih]
      simp [List.filter_cons, h]
    · rw [filter_insertDesc_ne key x _ v h, ih]
      simp [List.filter_cons, h]

/-! ## Claim C1: explain_rank versus calculate_task_rank -/

/-- C1 (counterexample): the claimed identity
`explain_rank(task, settings, today).total = calculate_task_rank(task,
settings, today)` fails on a task created 100 days before the current
instant: `calculate_task_rank` adds the age bonus `min(age_days * 0.1, 5)`
(here 5), while `explain_rank` has no age component, so the totals are
20 and 15. -/
theorem C1_counterexample :
    (explain_rank
        { pinned_today := false, priority := TaskPriority.P2, due_date := none,
          status := TaskStatus.NOT_STARTED, client := none, created_at := 0 }
        defaultSettings 0).total ≠
      calculate_task_rank
        { pinned_today := false, priority := TaskPriority.P2, due_date := none,
          status := TaskStatus.NOT_STARTED, client := none, created_at := 0 }
        defaultSettings 0 100 := by
  norm_num [calculate_task_rank, explain_rank, priorityScore, dueDateScore,
    statusScore, clientScore, ageScore, defaultSettings, defaultRankingWeights,
    round2, round_eq, min_def]

/-- C1 (amended): `explain_rank` reproduces exactly the per-component
values that `calculate_task_rank` sums — pinned bonus, priority term,
due-date urgency, status modifier and client weight — except for the age
bonus, which `calculate_task_rank` adds and `explain_rank` omits; whenever
the age bonus is zero the totals coincide exactly.  (The differing
priority fallback — `priority_p2` in the score, `0` in the explanation —
is unreachable because `TaskPriority` is a closed enum.) -/
theorem C1_explain_total_eq_rank_of_age_zero (task : RankTask)
    (settings : Settings) (today now : Int)
    (h : ageScore task.created_at now = 0) :
    (explain_rank task settings today).total =
      calculate_task_rank task settings today now := by
  unfold explain_rank calculate_task_rank
  simp only [ite_ne_zero_self, h, add_zero]

/-- Witness for C1 (amended) at a concrete pinned P0 task whose age bonus
is zero. -/
theorem C1_explain_total_eq_rank_of_age_zero_witness :
    ageScore 5 5 = 0 ∧
      (explain_rank
          { pinned_today := true, priority := TaskPriority.P0, due_date := some 3,
            status := TaskStatus.PENDING,
            client := some { name := "Acme", default_priority_weight := 7 },
            created_at := 5 }
          defaultSettings 0).total =
        calculate_task_rank
          { pinned_today := true, priority := TaskPriority.P0, due_date := some 3,
            status := TaskStatus.PENDING,
            client := some { name := "Acme", default_priority_weight := 7 },
            created_at := 5 }
          defaultSettings 0 5 :=
  ⟨by norm_num [ageScore, min_def],
   C1_explain_total_eq_rank_of_age_zero _ _ _ _ (by norm_num [ageScore, min_def])⟩

/-! ## Claim C2: pinned tasks -/

/-- C2 (counterexample): under the default `RankingWeights`, a pinned task
that is `PENDING` with priority `P3` (and no due date, client or age)
scores `1000 + 0 - 10 = 990 < 1000`, refuting the claimed floor of 1000
"regardless of the task's other attributes". -/
theorem C2_counterexample :
    calculate_task_rank
        { pinned_today := true, priority := TaskPriority.P3, due_date := none,
          status := TaskStatus.PENDING, client := none, created_at := 0 }
        defaultSettings 0 0 = 990 ∧ (990 : ℚ) < 1000 := by
  constructor
  · norm_num [calculate_task_rank, priorityScore, dueDateScore, statusScore,
      clientScore, ageScore, defaultSettings, defaultRankingWeights, round2,
      round_eq, min_def]
  · norm_num

/-- C2 (amended): under the default `RankingWeights`, every pinned task
not created in the future scores at least `990` (the `1000` pin bonus
less at most the `-10` pending modifier; every other default component is
nonnegative), and in `rank_tasks` every pinned task still sorts before
every unpinned task (pinned scores ≥ 990 strictly exceed the unpinned
maximum 245), provided tasks are not created in the future and client
weights respect the validated bound `≤ 20`. -/
theorem C2_pinned_floor_and_sorts_first :
    (∀ (t : RankTask) (today now : Int), t.pinned_today = true →
        t.created_at ≤ now →
        (990 : ℚ) ≤ calculate_task_rank t defaultSettings today now)
    ∧ (∀ (tasks : List RankTask) (today now : Int),
        (∀ t ∈ tasks, t.created_at ≤ now) →
        (∀ t ∈ tasks, clientWeightLe20 t = true) →
        (rank_tasks tasks defaultSettings today now).Pairwise
          (fun a b => b.pinned_today = true → a.pinned_today = true)) := by
  constructor
  · intro t today now hp hage
    exact rank_pinned_ge_990 t today now hp hage
  · intro tasks today now hage hcl
    have hsorted :=
      sorted_stableSortDesc
        (fun t => calculate_task_rank t defaultSettings today now) tasks
    simp only [rank_tasks]
    refine List.Pairwise.imp_of_mem ?_ hsorted
    intro a b ha hb hle
    intro hbp
    by_contra hap
    have hap' : a.pinned_today = false := by
      cases h : a.pinned_today
      · rfl
      · exact absurd h hap
    have ha' : a ∈ tasks := (mem_stableSortDesc _ _ _).mp ha
    have hb' : b ∈ tasks := (mem_stableSortDesc _ _ _).mp hb
    have hua : calculate_task_rank a defaultSettings today now ≤ 245 :=
      rank_unpinned_le_245 a today now hap' (hcl a ha')
    have hlb : (990 : ℚ) ≤ calculate_task_rank b defaultSettings today now :=
      rank_pinned_ge_990 b today now hbp (hage b hb')
    have : (990 : ℚ) ≤ 245 := le_trans hlb (le_trans hle hua)
    norm_num at this

/-- Witness for C2 (amended): both conjuncts applied at concrete inputs,
a pinned pending task and a two-task list. -/
theorem C2_pinned_floor_and_sorts_first_witness :
    (990 : ℚ) ≤ calculate_task_rank
        { pinned_today := true, priority := TaskPriority.P3, due_date := none,
          status := TaskStatus.PENDING, client := none, created_at := 0 }
        defaultSettings 0 0
    ∧ (rank_tasks
          [{ pinned_today := false, priority := TaskPriority.P0, due_date := some 0,
             status := TaskStatus.IN_PROGRESS, client := none, created_at := 0 },
           { pinned_today := true, priority := TaskPriority.P3, due_date := none,
             status := TaskStatus.PENDING, client := none, created_at := 0 }]
          defaultSettings 0 0).Pairwise
        (fun a b => b.pinned_today = true → a.pinned_today = true) :=
  ⟨C2_pinned_floor_and_sorts_first.1 _ 0 0 rfl (by decide),
   C2_pinned_floor_and_sorts_first.2 _ 0 0 (by decide) (by decide)⟩

/-! ## Claim C9: rank_tasks is a stable descending sort -/

/-- C9: `rank_tasks` returns the tasks in non-increasing order of
`calculate_task_rank` score, and for every score value the tasks holding
that exact score appear in the same relative order as in the input list
(the filter characterisation of a stable sort). -/
theorem C9_rank_tasks_sorted_and_stable (tasks : List RankTask)
    (settings : Settings) (today now : Int) :
    (rank_tasks tasks settings today now).Pairwise
      (fun a b => calculate_task_rank b settings today now ≤
                  calculate_task_rank a settings today now)
    ∧ ∀ v : ℚ,
        (rank_tasks tasks settings today now).filter
            (fun t => decide (calculate_task_rank t settings today now = v)) =
          tasks.filter
            (fun t => decide (calculate_task_rank t settings today now = v)) := by
  constructor
  · simpa [rank_tasks] using
      sorted_stableSortDesc
        (fun t => calculate_task_rank t settings today now) tasks
  · intro v
    simpa [rank_tasks] using
      filter_stableSortDesc
        (fun t => calculate_task_rank t settings today now) tasks v

/-! ## Claim C3: manual-edit protection and tag merging -/

/-- C3 (counterexample): for an automated (N8N) webhook update of an
existing task that is *not* under manual-edit protection
(`manually_edited = false`), the `tags` field is overwritten with the
incoming list rather than merged: the pre-existing tag `"a"` is lost. -/
theorem C3_counterexample :
    "a" ∈ ({ id := 1, title := "t", description := none,
             status := TaskStatus.NOT_STARTED, priority := TaskPriority.P2,
             due_date := none, due_time := none, start_date := none,
             timebox_bucket := TimeboxBucket.NONE, estimated_minutes := none,
             waiting_on := none, blocked_reason := none, tags := ["a"],
             labels := [], raw_source_payload := none, manually_edited := false,
             manual_fields := [], idempotency_key := some "k",
             source_type := "FIREFLIES", source_id := some "s" } : HubTask).tags
    ∧ "a" ∉ (applyWebhookUpdate
        { id := 1, title := "t", description := none,
          status := TaskStatus.NOT_STARTED, priority := TaskPriority.P2,
          due_date := none, due_time := none, start_date := none,
          timebox_bucket := TimeboxBucket.NONE, estimated_minutes := none,
          waiting_on := none, blocked_reason := none, tags := ["a"],
          labels := [], raw_source_payload := none, manually_edited := false,
          manual_fields := [], idempotency_key := some "k",
          source_type := "FIREFLIES", source_id := some "s" }
        { idempotency_key := "k", source_type := "FIREFLIES", source_id := "s",
          title := "t2", description := none, status := TaskStatus.NOT_STARTED,
          priority := TaskPriority.P2, due_date := none, due_time := none,
          start_date := none, timebox_bucket := none, estimated_minutes := none,
          waiting_on := none, blocked_reason := none, tags := ["b"],
          labels := [], raw_source_payload := none }).tags := by
  constructor
  · simp
  · simp [applyWebhookUpdate]

/-- C3 (amended): full characterisation of the N8N webhook update of an
existing task.  Under manual-edit protection (`manually_edited = true`),
every field listed in `manual_fields` is left unchanged, fields not
listed update to the incoming value when one is provided, and tags and
labels are merged as a set union.  Without protection, every mapped
field — including `tags` and `labels` — is overwritten with the incoming
value (so tags are only merged under protection, not "regardless of
protection status" as claimed). -/
theorem C3_protection_and_tag_merge (ex : HubTask) (inc : WebhookTaskIn) :
    ((applyWebhookUpdate ex inc).title =
        if ex.manually_edited ∧ "title" ∈ ex.manual_fields then ex.title
        else inc.title)
    ∧ ((applyWebhookUpdate ex inc).status =
        if ex.manually_edited ∧ "status" ∈ ex.manual_fields then ex.status
        else inc.status)
    ∧ ((applyWebhookUpdate ex inc).priority =
        if ex.manually_edited ∧ "priority" ∈ ex.manual_fields then ex.priority
        else inc.priority)
    ∧ ((applyWebhookUpdate ex inc).description =
        if ex.manually_edited ∧
            ("description" ∈ ex.manual_fields ∨ inc.description = none) then
          ex.description
        else inc.description)
    ∧ ((applyWebhookUpdate ex inc).due_date =
        if ex.manually_edited ∧
            ("due_date" ∈ ex.manual_fields ∨ inc.due_date = none) then
          ex.due_date
        else inc.due_date)
    ∧ ((applyWebhookUpdate ex inc).due_time =
        if ex.manually_edited ∧
            ("due_time" ∈ ex.manual_fields ∨ inc.due_time = none) then
          ex.due_time
        else inc.due_time)
    ∧ ((applyWebhookUpdate ex inc).timebox_bucket =
        if ex.manually_edited ∧
            ("timebox_bucket" ∈ ex.manual_fields ∨ inc.timebox_bucket = none) then
          ex.timebox_bucket
        else inc.timebox_bucket.getD TimeboxBucket.NONE)
    ∧ ((applyWebhookUpdate ex inc).estimated_minutes =
        if ex.manually_edited ∧
            ("estimated_minutes" ∈ ex.manual_fields ∨ inc.estimated_minutes = none) then
          ex.estimated_minutes
        else inc.estimated_minutes)
    ∧ ((applyWebhookUpdate ex inc).waiting_on =
        if ex.manually_edited ∧
            ("waiting_on" ∈ ex.manual_fields ∨ inc.waiting_on = none) then
          ex.waiting_on
        else inc.waiting_on)
    ∧ ((applyWebhookUpdate ex inc).blocked_reason =
        if ex.manually_edited ∧
            ("blocked_reason" ∈ ex.manual_fields ∨ inc.blocked_reason = none) then
          ex.blocked_reason
        else inc.blocked_reason)
    ∧ ((applyWebhookUpdate ex inc).start_date =
        if ex.manually_edited then ex.start_date else inc.start_date)
    ∧ ((applyWebhookUpdate ex inc).raw_source_payload =
        if ex.manually_edited then ex.raw_source_payload
        else inc.raw_source_payload)
    ∧ (∀ x, x ∈ (applyWebhookUpdate ex inc).tags ↔
        (if ex.manually_edited then x ∈ ex.tags ∨ x ∈ inc.tags
         else x ∈ inc.tags))
    ∧ (∀ x, x ∈ (applyWebhookUpdate ex inc).labels ↔
        (if ex.manually_edited then x ∈ ex.labels ∨ x ∈ inc.labels
         else x ∈ inc.labels)) := by
  by_cases hme : ex.manually_edited
  · refine ⟨?_, ?_, ?_, ?_, ?_, ?_, ?_, ?_, ?_, ?_, ?_, ?_, ?_, ?_⟩
    · by_cases h : "title" ∈ ex.manual_fields <;>
        simp [applyWebhookUpdate, hme, h]
    · by_cases h : "status" ∈ ex.manual_fields <;>
        simp [applyWebhookUpdate, hme, h]
    · by_cases h : "priority" ∈ ex.manual_fields <;>
        simp [applyWebhookUpdate, hme, h]
    · by_cases h : "description" ∈ ex.manual_fields <;>
        cases hd : inc.description <;> simp [applyWebhookUpdate, hme, h, hd]
    · by_cases h : "due_date" ∈ ex.manual_fields <;>
        cases hd : inc.due_date <;> simp [applyWebhookUpdate, hme, h, hd]
    · by_cases h : "due_time" ∈ ex.manual_fields <;>
        cases hd : inc.due_time <;> simp [applyWebhookUpdate, hme, h, hd]
    · by_cases h : "timebox_bucket" ∈ ex.manual_fields <;>
        cases hd : inc.timebox_bucket <;> simp [applyWebhookUpdate, hme, h, hd]
    · by_cases h : "estimated_minutes" ∈ ex.manual_fields <;>
        cases hd : inc.estimated_minutes <;> simp [applyWebhookUpdate, hme, h, hd]
    · by_cases h : "waiting_on" ∈ ex.manual_fields <;>
        cases hd : inc.waiting_on <;> simp [applyWebhookUpdate, hme, h, hd]
    · by_cases h : "blocked_reason" ∈ ex.manual_fields <;>
        cases hd : inc.blocked_reason <;> simp [applyWebhookUpdate, hme, h, hd]
    · simp [applyWebhookUpdate, hme]
    · simp [applyWebhookUpdate, hme]
    · intro x
      by_cases ht : inc.tags = [] <;>
        simp [applyWebhookUpdate, hme, ht, setUnion, List.mem_dedup,
          List.mem_append]
    · intro x
      by_cases hl : inc.labels = [] <;>
        simp [applyWebhookUpdate, hme, hl, setUnion, List.mem_dedup,
          List.mem_append]
  · simp [applyWebhookUpdate, hme]

/-! ## Claim C4: the subtask-completion invariant -/

/-- C4 (counterexample): `update_task` can set a task's status to
`COMPLETED` even though a subtask is still `NOT_STARTED` — the
subtask-completion invariant is enforced only on the `complete_task`
path, not on every write path that can set a status. -/
theorem C4_counterexample :
    (update_task
        { status := TaskStatus.NOT_STARTED, subtasks := [TaskStatus.NOT_STARTED],
          completed_at := none, manually_edited := false, manual_fields := [] }
        (some TaskStatus.COMPLETED) ActorType.MANUAL 0).status =
        TaskStatus.COMPLETED
    ∧ TaskStatus.NOT_STARTED ∈
        (update_task
          { status := TaskStatus.NOT_STARTED, subtasks := [TaskStatus.NOT_STARTED],
            completed_at := none, manually_edited := false, manual_fields := [] }
          (some TaskStatus.COMPLETED) ActorType.MANUAL 0).subtasks := by
  decide

/-- C4 (amended): the invariant is enforced by `complete_task` alone:
whenever some subtask is not `COMPLETED`, `complete_task` rejects the
operation — it returns no task and a descriptive reason, performing no
state change — while `update_task` (the generic status write path) sets
`COMPLETED` without any subtask check, as the counterexample shows. -/
theorem C4_complete_task_rejects_incomplete (t : StoredTask) (actor : ActorType)
    (nowT : Int) (h : ∃ s ∈ t.subtasks, s ≠ TaskStatus.COMPLETED) :
    (complete_task t actor nowT).1 = none ∧
      (complete_task t actor nowT).2.isSome := by
  have hlen :
      (t.subtasks.filter (fun s => decide (s ≠ TaskStatus.COMPLETED))).length ≠ 0 := by
    obtain ⟨s, hs, hne⟩ := h
    have hmem : s ∈ t.subtasks.filter (fun s => decide (s ≠ TaskStatus.COMPLETED)) :=
      List.mem_filter.mpr ⟨hs, by simp [hne]⟩
    intro h0
    rw [List.length_eq_zero] at h0
    rw [h0] at hmem
    exact absurd hmem (List.not_mem_nil s)
  simp only [complete_task]
  rw [if_pos hlen]
  exact ⟨rfl, rfl⟩

/-- Witness for C4 (amended) at a task with one `NOT_STARTED` subtask. -/
theorem C4_complete_task_rejects_incomplete_witness :
    (complete_task
        { status := TaskStatus.IN_PROGRESS, subtasks := [TaskStatus.NOT_STARTED],
          completed_at := none, manually_edited := false, manual_fields := [] }
        ActorType.MANUAL 0).1 = none ∧
      (complete_task
        { status := TaskStatus.IN_PROGRESS, subtasks := [TaskStatus.NOT_STARTED],
          completed_at := none, manually_edited := false, manual_fields := [] }
        ActorType.MANUAL 0).2.isSome :=
  C4_complete_task_rejects_incomplete _ ActorType.MANUAL 0
    ⟨TaskStatus.NOT_STARTED, by decide, by decide⟩

/-! ## Helper lemmas: the per-template cursor loop -/

theorem genLoop_subset (a : Int → Option Int) (ed : Option Int) (sw : Bool)
    (tid : ℕ) (h : Int) :
    ∀ (f : ℕ) (cur : Int) (inst : List (ℕ × Int)) (cr : List Int)
      (inst' : List (ℕ × Int)),
      genLoop a ed sw tid h f cur inst = some (cr, inst') →
      (∀ p ∈ inst, p ∈ inst') ∧ (∀ d ∈ cr, (tid, d) ∈ inst') := by
  intro f
  induction f with
  | zero =>
    intro cur inst cr inst' hrun
    simp [genLoop] at hrun
  | succ f ih =>
    intro cur inst cr inst' hrun
    simp only [genLoop] at hrun
    by_cases h1 : cur ≤ h
    · rw [if_pos h1] at hrun
      by_cases h2 : endBreak ed cur = true
      · rw [if_pos h2] at hrun
        simp only [Option.some.injEq, Prod.mk.injEq] at hrun
        obtain ⟨rfl, rfl⟩ := hrun
        exact ⟨fun p hp => hp, by simp⟩
      · rw [if_neg h2] at hrun
        by_cases h3 : sw = true ∧ 5 ≤ weekday cur
        · rw [if_pos h3] at hrun
          exact ih _ _ _ _ hrun
        · rw [if_neg h3] at hrun
          by_cases hex : (tid, cur) ∈ inst
          · rw [if_pos hex] at hrun
            split at hrun
            · exact ih _ _ _ _ hrun
            · simp only [Option.some.injEq, Prod.mk.injEq] at hrun
              obtain ⟨rfl, rfl⟩ := hrun
              exact ⟨fun p hp => hp, by simp⟩
          · rw [if_neg hex] at hrun
            split at hrun
            · rename_i nx ha
              split at hrun
              · rename_i created inst3 hg
                simp only [Option.some.injEq, Prod.mk.injEq] at hrun
                obtain ⟨rfl, rfl⟩ := hrun
                obtain ⟨hs1, hs2⟩ := ih _ _ _ _ hg
                constructor
                · exact fun p hp => hs1 p (List.mem_cons_of_mem _ hp)
                · intro d hd
                  rcases List.mem_cons.mp hd with rfl | hd
                  · exact hs1 _ (List.mem_cons_self _ _)
                  · exact hs2 d hd
              · exact absurd hrun (by simp)
            · simp only [Option.some.injEq, Prod.mk.injEq] at hrun
              obtain ⟨rfl, rfl⟩ := hrun
              constructor
              · exact fun p hp => List.mem_cons_of_mem _ hp
              · intro d hd
                simp only [List.mem_singleton] at hd
                subst hd
                exact List.mem_cons_self _ _
    · rw [if_neg h1] at hrun
      simp only [Option.some.injEq, Prod.mk.injEq] at hrun
      obtain ⟨rfl, rfl⟩ := hrun
      exact ⟨fun p hp => hp, by simp⟩

theorem genLoop_mono (a : Int → Option Int) (ed : Option Int) (sw : Bool)
    (tid : ℕ) (h : Int) :
    ∀ (f : ℕ) (cur : Int) (inst : List (ℕ × Int))
      (r : List Int × List (ℕ × Int)),
      genLoop a ed sw tid h f cur inst = some r →
      genLoop a ed sw tid h (f + 1) cur inst = some r := by
  intro f
  induction f with
  | zero =>
    intro cur inst r hrun
    simp [genLoop] at hrun
  | succ f ih =>
    intro cur inst r hrun
    rw [genLoop] at hrun
    rw [genLoop]
    by_cases h1 : cur ≤ h
    · rw [if_pos h1] at hrun ⊢
      by_cases h2 : endBreak ed cur = true
      · rw [if_pos h2] at hrun ⊢
        exact hrun
      · rw [if_neg h2] at hrun ⊢
        by_cases h3 : sw = true ∧ 5 ≤ weekday cur
        · rw [if_pos h3] at hrun ⊢
          exact ih _ _ _ hrun
        · rw [if_neg h3] at hrun ⊢
          by_cases hex : (tid, cur) ∈ inst
          · rw [if_pos hex] at hrun ⊢
            split at hrun
            · exact ih _ _ _ hrun
            · exact hrun
          · rw [if_neg hex] at hrun ⊢
            split at hrun
            · rename_i nx ha
              split at hrun
              · rename_i created inst3 hg
                rw [ih _ _ _ hg]
                exact hrun
              · exact absurd hrun (by simp)
            · exact hrun
    · rw [if_neg h1] at hrun ⊢
      exact hrun

theorem genLoop_fuel_le (a : Int → Option Int) (ed : Option Int) (sw : Bool)
    (tid : ℕ) (h : Int) {f f' : ℕ} (hle : f ≤ f') :
    ∀ (cur : Int) (inst : List (ℕ × Int)) (r : List Int × List (ℕ × Int)),
      genLoop a ed sw tid h f cur inst = some r →
      genLoop a ed sw tid h f' cur inst = some r := by
  obtain ⟨k, rfl⟩ := Nat.exists_eq_add_of_le hle
  clear hle
  induction k with
  | zero => exact fun cur inst r hrun => hrun
  | succ k ih =>
    intro cur inst r hrun
    exact genLoop_mono a ed sw tid h (f + k) _ _ _ (ih cur inst r hrun)

theorem genLoop_det (a : Int → Option Int) (ed : Option Int) (sw : Bool)
    (tid : ℕ) (h : Int) {f1 f2 : ℕ} {cur : Int} {inst : List (ℕ × Int)}
    {r1 r2 : List Int × List (ℕ × Int)}
    (h1 : genLoop a ed sw tid h f1 cur inst = some r1)
    (h2 : genLoop a ed sw tid h f2 cur inst = some r2) : r1 = r2 := by
  have e1 := genLoop_fuel_le a ed sw tid h (Nat.le_max_left f1 f2) _ _ _ h1
  have e2 := genLoop_fuel_le a ed sw tid h (Nat.le_max_right f1 f2) _ _ _ h2
  rw [e1] at e2
  exact Option.some_inj.mp e2

theorem genLoop_replay (a : Int → Option Int) (ed : Option Int) (sw : Bool)
    (tid : ℕ) (h : Int) :
    ∀ (f2 : ℕ) (f : ℕ) (cur : Int) (inst : List (ℕ × Int)) (cr : List Int)
      (inst' : List (ℕ × Int)) (S : List (ℕ × Int)) (c2 : List Int)
      (i2 : List (ℕ × Int)),
      genLoop a ed sw tid h f cur inst = some (cr, inst') →
      (∀ p ∈ inst', p ∈ S) →
      genLoop a ed sw tid h f2 cur S = some (c2, i2) →
      c2 = [] ∧ i2 = S := by
  intro f2
  induction f2 with
  | zero =>
    intro f cur inst cr inst' S c2 i2 hrun1 hsub hrun2
    simp [genLoop] at hrun2
  | succ f2 ih =>
    intro f cur inst cr inst' S c2 i2 hrun1 hsub hrun2
    rw [genLoop] at hrun2
    by_cases h1 : cur ≤ h
    · rw [if_pos h1] at hrun2
      by_cases h2 : endBreak ed cur = true
      · rw [if_pos h2] at hrun2
        simp only [Option.some.injEq, Prod.mk.injEq] at hrun2
        obtain ⟨rfl, rfl⟩ := hrun2
        exact ⟨rfl, rfl⟩
      · rw [if_neg h2] at hrun2
        by_cases h3 : sw = true ∧ 5 ≤ weekday cur
        · rw [if_pos h3] at hrun2
          cases f with
          | zero => simp [genLoop] at hrun1
          | succ g =>
            rw [genLoop] at hrun1
            rw [if_pos h1, if_neg h2, if_pos h3] at hrun1
            exact ih g _ _ _ _ _ _ _ hrun1 hsub hrun2
        · rw [if_neg h3] at hrun2
          cases f with
          | zero => simp [genLoop] at hrun1
          | succ g =>
            rw [genLoop] at hrun1
            rw [if_pos h1, if_neg h2, if_neg h3] at hrun1
            by_cases hex : (tid, cur) ∈ inst
            · rw [if_pos hex] at hrun1
              cases ha : a cur
              · rw [ha] at hrun1
                simp only [] at hrun1
                simp only [Option.some.injEq, Prod.mk.injEq] at hrun1
                obtain ⟨rfl, rfl⟩ := hrun1
                have hmemS : (tid, cur) ∈ S := hsub _ hex
                rw [if_pos hmemS, ha] at hrun2
                simp only [] at hrun2
                simp only [Option.some.injEq, Prod.mk.injEq] at hrun2
                obtain ⟨rfl, rfl⟩ := hrun2
                exact ⟨rfl, rfl⟩
              · rename_i nx
                rw [ha] at hrun1
                simp only [] at hrun1
                have hmemS : (tid, cur) ∈ S :=
                  hsub _ ((genLoop_subset a ed sw tid h g _ _ _ _ hrun1).1 _ hex)
                rw [if_pos hmemS, ha] at hrun2
                simp only [] at hrun2
                exact ih g nx inst cr inst' S c2 i2 hrun1 hsub hrun2
            · rw [if_neg hex] at hrun1
              cases ha : a cur
              · rw [ha] at hrun1
                simp only [] at hrun1
                simp only [Option.some.injEq, Prod.mk.injEq] at hrun1
                obtain ⟨rfl, rfl⟩ := hrun1
                have hmemS : (tid, cur) ∈ S := hsub _ (List.mem_cons_self _ _)
                rw [if_pos hmemS, ha] at hrun2
                simp only [] at hrun2
                simp only [Option.some.injEq, Prod.mk.injEq] at hrun2
                obtain ⟨rfl, rfl⟩ := hrun2
                exact ⟨rfl, rfl⟩
              · rename_i nx
                rw [ha] at hrun1
                simp only [] at hrun1
                split at hrun1
                · rename_i created inst3 hg1
                  simp only [Option.some.injEq, Prod.mk.injEq] at hrun1
                  obtain ⟨rfl, rfl⟩ := hrun1
                  have hmemS : (tid, cur) ∈ S :=
                    hsub _ ((genLoop_subset a ed sw tid h g _ _ _ _ hg1).1 _
                      (List.mem_cons_self _ _))
                  rw [if_pos hmemS, ha] at hrun2
                  simp only [] at hrun2
                  exact ih g nx ((tid, cur) :: inst) created inst3 S c2 i2 hg1
                    hsub hrun2
                · exact absurd hrun1 (by simp)
    · rw [if_neg h1] at hrun2
      simp only [Option.some.injEq, Prod.mk.injEq] at hrun2
      obtain ⟨rfl, rfl⟩ := hrun2
      exact ⟨rfl, rfl⟩

theorem genLoop_weekday (a : Int → Option Int) (ed : Option Int)
    (tid : ℕ) (h : Int) :
    ∀ (f : ℕ) (cur : Int) (inst : List (ℕ × Int)) (cr : List Int)
      (inst' : List (ℕ × Int)),
      genLoop a ed true tid h f cur inst = some (cr, inst') →
      ∀ d ∈ cr, weekday d < 5 := by
  intro f
  induction f with
  | zero =>
    intro cur inst cr inst' hrun
    simp [genLoop] at hrun
  | succ f ih =>
    intro cur inst cr inst' hrun
    rw [genLoop] at hrun
    by_cases h1 : cur ≤ h
    · rw [if_pos h1] at hrun
      by_cases h2 : endBreak ed cur = true
      · rw [if_pos h2] at hrun
        simp only [Option.some.injEq, Prod.mk.injEq] at hrun
        obtain ⟨rfl, rfl⟩ := hrun
        simp
      · rw [if_neg h2] at hrun
        by_cases h3 : (true : Bool) = true ∧ 5 ≤ weekday cur
        · rw [if_pos h3] at hrun
          exact ih _ _ _ _ hrun
        · rw [if_neg h3] at hrun
          have hwd : weekday cur < 5 := by
            rcases not_and_or.mp h3 with hc | hc
            · exact absurd rfl hc
            · exact lt_of_not_le hc
          by_cases hex : (tid, cur) ∈ inst
          · rw [if_pos hex] at hrun
            split at hrun
            · exact ih _ _ _ _ hrun
            · simp only [Option.some.injEq, Prod.mk.injEq] at hrun
              obtain ⟨rfl, rfl⟩ := hrun
              simp
          · rw [if_neg hex] at hrun
            split at hrun
            · rename_i nx ha
              split at hrun
              · rename_i created inst3 hg
                simp only [Option.some.injEq, Prod.mk.injEq] at hrun
                obtain ⟨rfl, rfl⟩ := hrun
                intro d hd
                rcases List.mem_cons.mp hd with rfl | hd
                · exact hwd
                · exact ih _ _ _ _ hg d hd
              · exact absurd hrun (by simp)
            · simp only [Option.some.injEq, Prod.mk.injEq] at hrun
              obtain ⟨rfl, rfl⟩ := hrun
              intro d hd
              simp only [List.mem_singleton] at hd
              subst hd
              exact hwd
    · rw [if_neg h1] at hrun
      simp only [Option.some.injEq, Prod.mk.injEq] at hrun
      obtain ⟨rfl, rfl⟩ := hrun
      simp

/-! ## Helper lemmas: per-template expansion -/

/-- The property of the rrule engine's `after` operation backing every
rule produced by a parse: `rule.after(d)` is strictly after `d`
(dateutil's contract, at date granularity). -/
def hafterProp (parse : String → Option (Int → Option Int)) : Prop :=
  ∀ s r, parse s = some r → ∀ d e, r d = some e → d < e

/-- How one expansion step may change a stored template row: either
untouched, or its `next_occurrence_at` overwritten with a value strictly
after the horizon. -/
def relNext (h : Int) (t0 t1 : RecTemplate) : Prop :=
  t1 = t0 ∨ ∃ nx, h < nx ∧ t1 = { t0 with next_occurrence_at := some nx }

/-- A template is quiet for an instance set `S`: expanding it against any
store whose instances contain `S` creates nothing and leaves the store
unchanged. -/
def QuietTemplate (parse : String → Option (Int → Option Int))
    (todayD h : Int) (t : RecTemplate) (S : List (ℕ × Int)) : Prop :=
  ∀ (f : ℕ) (db : RecDB) (c : List Int) (db' : RecDB),
    (∀ p ∈ S, p ∈ db.instances) →
    generate_instances_for_task parse todayD h f t db = some (c, db') →
    c = [] ∧ db' = db

theorem quiet_mono {parse : String → Option (Int → Option Int)}
    {todayD h : Int} {t : RecTemplate} {S S' : List (ℕ × Int)}
    (hss : ∀ p ∈ S, p ∈ S')
    (hq : QuietTemplate parse todayD h t S) :
    QuietTemplate parse todayD h t S' :=
  fun f db c db' hsub hrun => hq f db c db' (fun p hp => hsub p (hss p hp)) hrun

theorem relNext_id {h : Int} {a b : RecTemplate} (hr : relNext h a b) :
    b.id = a.id := by
  rcases hr with rfl | ⟨nx, _, rfl⟩ <;> rfl

theorem relNext_gt {h : Int} {a b : RecTemplate} (hr : relNext h a b)
    (ha : ∀ n, a.next_occurrence_at = some n → h < n) :
    ∀ n, b.next_occurrence_at = some n → h < n := by
  rcases hr with rfl | ⟨nx, hnx, rfl⟩
  · exact ha
  · intro n hn
    simp only [Option.some.injEq] at hn
    rw [← hn]
    exact hnx

theorem relNext_trans {h : Int} {a b c : RecTemplate}
    (h1 : relNext h a b) (h2 : relNext h b c) : relNext h a c := by
  rcases h1 with rfl | ⟨nx, hnx, rfl⟩
  · exact h2
  · rcases h2 with rfl | ⟨nx', hnx', rfl⟩
    · exact Or.inr ⟨nx, hnx, rfl⟩
    · right
      refine ⟨nx', hnx', ?_⟩
      cases a
      rfl

theorem forall₂_relNext_refl (h : Int) (l : List RecTemplate) :
    List.Forall₂ (relNext h) l l :=
  List.forall₂_same.mpr (fun _ _ => Or.inl rfl)

theorem forall₂_relNext_setNext (h : Int) (tid : ℕ) (nx : Int) (hgt : h < nx) :
    ∀ l : List RecTemplate,
      List.Forall₂ (relNext h)
        l (l.map (fun u =>
            if u.id = tid then { u with next_occurrence_at := some nx } else u))
  | [] => List.Forall₂.nil
  | u :: l => by
    refine List.Forall₂.cons ?_ (forall₂_relNext_setNext h tid nx hgt l)
    show relNext h u
      (if u.id = tid then { u with next_occurrence_at := some nx } else u)
    by_cases hu : u.id = tid
    · rw [if_pos hu]
      exact Or.inr ⟨nx, hgt, rfl⟩
    · rw [if_neg hu]
      exact Or.inl rfl

theorem setNext_marked (h : Int) (tid : ℕ) (nx : Int) (hgt : h < nx)
    (l : List RecTemplate) :
    ∀ t1 ∈ l.map (fun u =>
        if u.id = tid then { u with next_occurrence_at := some nx } else u),
      t1.id = tid → ∀ n, t1.next_occurrence_at = some n → h < n := by
  intro t1 ht1 hid n hn
  obtain ⟨u, hu, rfl⟩ := List.mem_map.mp ht1
  by_cases huid : u.id = tid
  · rw [if_pos huid] at hn
    simp only [Option.some.injEq] at hn
    rw [← hn]
    exact hgt
  · rw [if_neg huid] at hid
    exact absurd hid huid

theorem forall₂_relNext_trans {h : Int} :
    ∀ {l0 l1 l2 : List RecTemplate}, List.Forall₂ (relNext h) l0 l1 →
      List.Forall₂ (relNext h) l1 l2 → List.Forall₂ (relNext h) l0 l2 := by
  intro l0 l1 l2 h1 h2
  induction h1 generalizing l2 with
  | nil =>
    cases h2
    exact List.Forall₂.nil
  | cons hab h1' ih =>
    cases h2 with
    | cons hbc h2' => exact List.Forall₂.cons (relNext_trans hab hbc) (ih h2')

theorem forall₂_relNext_mem_right {h : Int} :
    ∀ {l0 l1 : List RecTemplate}, List.Forall₂ (relNext h) l0 l1 →
      ∀ b ∈ l1, ∃ a ∈ l0, relNext h a b := by
  intro l0 l1 hf
  induction hf with
  | nil =>
    intro b hb
    exact absurd hb (List.not_mem_nil b)
  | cons hab hf ih =>
    intro b hb
    rcases List.mem_cons.mp hb with rfl | hb
    · exact ⟨_, List.mem_cons_self _ _, hab⟩
    · obtain ⟨a, ha, hr⟩ := ih b hb
      exact ⟨a, List.mem_cons_of_mem _ ha, hr⟩

/-- Expanding a template whose rule is absent, empty, or unparseable is
an atomic no-op: no instances, no store writes. -/
theorem inner_noop_of_badrule (parse : String → Option (Int → Option Int))
    (todayD h : Int) (fuel : ℕ) (t : RecTemplate) (db : RecDB)
    (hbad : t.recurrence_rule = none ∨ t.recurrence_rule = some "" ∨
      ∃ s, t.recurrence_rule = some s ∧ parse s = none) :
    generate_instances_for_task parse todayD h fuel t db = some ([], db) := by
  rcases hbad with hb | hb | ⟨s, hb, hp⟩
  · simp [generate_instances_for_task, hb]
  · simp [generate_instances_for_task, hb]
  · by_cases hse : s = ""
    · simp [generate_instances_for_task, hb, hse]
    · simp [generate_instances_for_task, hb, hse, hp]

/-- The three facts about one `generate_instances_for_task` run needed by
the idempotence argument: the instance set only grows; each stored
template is untouched or has its `next_occurrence_at` pushed past the
horizon; and the processed template is either quiet for the resulting
instance set or every row with its id is marked past the horizon. -/
theorem inner_spec (parse : String → Option (Int → Option Int))
    (todayD h : Int) (fuel : ℕ) (t : RecTemplate) (db : RecDB)
    (cr : List Int) (db' : RecDB)
    (hrun : generate_instances_for_task parse todayD h fuel t db = some (cr, db')) :
    (∀ p ∈ db.instances, p ∈ db'.instances)
    ∧ (hafterProp parse → List.Forall₂ (relNext h) db.templates db'.templates)
    ∧ (hafterProp parse →
        QuietTemplate parse todayD h t db'.instances
        ∨ ∀ t1 ∈ db'.templates, t1.id = t.id →
            ∀ n, t1.next_occurrence_at = some n → h < n) := by
  unfold generate_instances_for_task at hrun
  cases hr : t.recurrence_rule with
  | none =>
    rw [hr] at hrun
    simp only [Option.some.injEq, Prod.mk.injEq] at hrun
    obtain ⟨rfl, rfl⟩ := hrun
    refine ⟨fun p hp => hp, fun _ => forall₂_relNext_refl h _, fun _ => Or.inl ?_⟩
    intro f dbx c dbx' _ hrx
    unfold generate_instances_for_task at hrx
    rw [hr] at hrx
    simp only [Option.some.injEq, Prod.mk.injEq] at hrx
    obtain ⟨rfl, rfl⟩ := hrx
    exact ⟨rfl, rfl⟩
  | some s =>
    rw [hr] at hrun
    simp only [] at hrun
    by_cases hse : s = ""
    · rw [if_pos hse] at hrun
      simp only [Option.some.injEq, Prod.mk.injEq] at hrun
      obtain ⟨rfl, rfl⟩ := hrun
      refine ⟨fun p hp => hp, fun _ => forall₂_relNext_refl h _, fun _ => Or.inl ?_⟩
      intro f dbx c dbx' _ hrx
      unfold generate_instances_for_task at hrx
      rw [hr] at hrx
      simp only [] at hrx
      rw [if_pos hse] at hrx
      simp only [Option.some.injEq, Prod.mk.injEq] at hrx
      obtain ⟨rfl, rfl⟩ := hrx
      exact ⟨rfl, rfl⟩
    · rw [if_neg hse] at hrun
      cases hp : parse s with
      | none =>
        rw [hp] at hrun
        simp only [] at hrun
        simp only [Option.some.injEq, Prod.mk.injEq] at hrun
        obtain ⟨rfl, rfl⟩ := hrun
        refine ⟨fun p hp => hp, fun _ => forall₂_relNext_refl h _, fun _ => Or.inl ?_⟩
        intro f dbx c dbx' _ hrx
        unfold generate_instances_for_task at hrx
        rw [hr] at hrx
        simp only [] at hrx
        rw [if_neg hse, hp] at hrx
        simp only [] at hrx
        simp only [Option.some.injEq, Prod.mk.injEq] at hrx
        obtain ⟨rfl, rfl⟩ := hrx
        exact ⟨rfl, rfl⟩
      | some after =>
        rw [hp] at hrun
        simp only [] at hrun
        split at hrun
        · exact absurd hrun (by simp)
        · rename_i created inst2 hg
          simp only [Option.some.injEq, Prod.mk.injEq] at hrun
          obtain ⟨rfl, rfl⟩ := hrun
          cases haf : after h with
          | some nx =>
            simp only [haf]
            refine ⟨?_, ?_, ?_⟩
            · intro p hp2
              simp only [setNext]
              exact (genLoop_subset after _ _ _ h fuel _ _ _ _ hg).1 p hp2
            · intro hafter
              have hgt : h < nx := hafter s after hp h nx haf
              simpa [setNext] using
                forall₂_relNext_setNext h t.id nx hgt db.templates
            · intro hafter
              have hgt : h < nx := hafter s after hp h nx haf
              right
              simpa [setNext] using
                setNext_marked h t.id nx hgt db.templates
          | none =>
            simp only [haf]
            refine ⟨?_, fun _ => forall₂_relNext_refl h _, fun _ => Or.inl ?_⟩
            · intro p hp2
              exact (genLoop_subset after _ _ _ h fuel _ _ _ _ hg).1 p hp2
            · intro f dbx c dbx' hsubx hrx
              unfold generate_instances_for_task at hrx
              rw [hr] at hrx
              simp only [] at hrx
              rw [if_neg hse, hp] at hrx
              simp only [] at hrx
              split at hrx
              · exact absurd hrx (by simp)
              · rename_i c2 i2 hg2
                obtain ⟨hc2, hi2⟩ :=
                  genLoop_replay after _ _ _ h f fuel _ _ _ _ _ _ _ hg hsubx hg2
                subst hc2
                subst hi2
                simp only [haf] at hrx
                simp only [Option.some.injEq, Prod.mk.injEq] at hrx
                obtain ⟨rfl, rfl⟩ := hrx
                exact ⟨rfl, rfl⟩

/-! ## Helper lemmas: the outer expansion pass -/

theorem processAll_spec (parse : String → Option (Int → Option Int))
    (todayD h : Int) (fuel : ℕ) :
    ∀ (ts : List RecTemplate) (db : RecDB) (c : List (ℕ × Int)) (db1 : RecDB),
      processAll parse todayD h fuel ts db = some (c, db1) →
      (∀ p ∈ db.instances, p ∈ db1.instances)
      ∧ (hafterProp parse → List.Forall₂ (relNext h) db.templates db1.templates)
      ∧ (hafterProp parse → ∀ t ∈ ts,
          QuietTemplate parse todayD h t db1.instances
          ∨ ∀ t1 ∈ db1.templates, t1.id = t.id →
              ∀ n, t1.next_occurrence_at = some n → h < n) := by
  intro ts
  induction ts with
  | nil =>
    intro db c db1 hrun
    simp only [processAll, Option.some.injEq, Prod.mk.injEq] at hrun
    obtain ⟨rfl, rfl⟩ := hrun
    exact ⟨fun p hp => hp, fun _ => forall₂_relNext_refl h _,
      fun _ t ht => absurd ht (List.not_mem_nil t)⟩
  | cons t ts ih =>
    intro db c db1 hrun
    simp only [processAll] at hrun
    split at hrun
    · exact absurd hrun (by simp)
    · rename_i cr db2 hg
      split at hrun
      · exact absurd hrun (by simp)
      · rename_i crs db3 hrest
        simp only [Option.some.injEq, Prod.mk.injEq] at hrun
        obtain ⟨rfl, rfl⟩ := hrun
        obtain ⟨isub, irel, ialt⟩ := inner_spec parse todayD h fuel t db cr db2 hg
        obtain ⟨rsub, rrel, ralt⟩ := ih db2 crs db3 hrest
        refine ⟨fun p hp => rsub p (isub p hp),
          fun ha => forall₂_relNext_trans (irel ha) (rrel ha),
          fun ha t' ht' => ?_⟩
        rcases List.mem_cons.mp ht' with rfl | ht'
        · rcases ialt ha with hq | hmk
          · exact Or.inl (quiet_mono rsub hq)
          · right
            intro t1 ht1 hid n hn
            obtain ⟨tm, htm, hrel⟩ := forall₂_relNext_mem_right (rrel ha) t1 ht1
            have hidm : tm.id = t'.id := (relNext_id hrel).symm.trans hid
            exact relNext_gt hrel (hmk tm htm hidm) n hn
        · exact ralt ha t' ht'

theorem processAll_quiet (parse : String → Option (Int → Option Int))
    (todayD h : Int) (fuel : ℕ) (S : List (ℕ × Int)) :
    ∀ (ts : List RecTemplate) (db : RecDB) (c : List (ℕ × Int)) (db' : RecDB),
      (∀ t ∈ ts, QuietTemplate parse todayD h t S) →
      (∀ p ∈ S, p ∈ db.instances) →
      processAll parse todayD h fuel ts db = some (c, db') →
      c = [] ∧ db' = db := by
  intro ts
  induction ts with
  | nil =>
    intro db c db' _ _ hrun
    simp only [processAll, Option.some.injEq, Prod.mk.injEq] at hrun
    obtain ⟨rfl, rfl⟩ := hrun
    exact ⟨rfl, rfl⟩
  | cons t ts ih =>
    intro db c db' hq hsub hrun
    simp only [processAll] at hrun
    split at hrun
    · exact absurd hrun (by simp)
    · rename_i cr db2 hg
      obtain ⟨hcr, hdb2⟩ := hq t (List.mem_cons_self _ _) fuel db cr db2 hsub hg
      subst hcr
      rw [hdb2] at hrun
      split at hrun
      · exact absurd hrun (by simp)
      · rename_i crs db3 hrest
        obtain ⟨hcrs, hdb3⟩ :=
          ih db crs db3 (fun t' ht' => hq t' (List.mem_cons_of_mem _ ht')) hsub hrest
        subst hcrs
        rw [hdb3] at hrun
        simp only [List.map_nil, List.nil_append, Option.some.injEq,
          Prod.mk.injEq] at hrun
        obtain ⟨rfl, rfl⟩ := hrun
        exact ⟨rfl, rfl⟩

/-! ## Claim C5: recurrence expansion is idempotent -/

/-- C5: recurrence expansion is idempotent.  For every template set,
horizon and reference date, if a first expansion run terminates with
state `db1`, then a second run with the same horizon on `db1` creates
zero task instances and leaves the store unchanged.  The hypotheses are
the rrule engine's contract (`after` returns a date strictly later than
its argument) — the existing-instance check on
`(parent_recurring_task_id, due_date)` and the advanced
`next_occurrence_at` cursor provide the idempotence. -/
theorem C5_expansion_idempotent (parse : String → Option (Int → Option Int))
    (todayD h : Int) (f1 f2 : ℕ) (db : RecDB) (c1 : List (ℕ × Int))
    (db1 : RecDB) (c2 : List (ℕ × Int)) (db2 : RecDB)
    (hafter : hafterProp parse)
    (h1 : generate_recurring_instances parse todayD h f1 db = some (c1, db1))
    (h2 : generate_recurring_instances parse todayD h f2 db1 = some (c2, db2)) :
    c2 = [] ∧ db2 = db1 := by
  unfold generate_recurring_instances at h1 h2
  obtain ⟨sub1, rel1, alt1⟩ := processAll_spec parse todayD h f1 _ db c1 db1 h1
  have hq : ∀ t1 ∈ db1.templates.filter (selTest h),
      QuietTemplate parse todayD h t1 db1.instances := by
    intro t1 ht1
    obtain ⟨ht1mem, ht1sel⟩ := List.mem_filter.mp ht1
    obtain ⟨n, hn, hnle⟩ : ∃ n, t1.next_occurrence_at = some n ∧ n ≤ h := by
      have hsel' := ht1sel
      unfold selTest at hsel'
      rw [Bool.and_eq_true, Bool.and_eq_true] at hsel'
      obtain ⟨-, hm⟩ := hsel'
      cases hv : t1.next_occurrence_at with
      | none =>
        rw [hv] at hm
        simp at hm
      | some n =>
        rw [hv] at hm
        simp only [] at hm
        exact ⟨n, rfl, of_decide_eq_true hm⟩
    obtain ⟨t0, ht0, hrel⟩ := forall₂_relNext_mem_right (rel1 hafter) t1 ht1mem
    rcases hrel with heq | ⟨nx, hnx, heq2⟩
    · subst heq
      have ht0sel : t1 ∈ db.templates.filter (selTest h) :=
        List.mem_filter.mpr ⟨ht0, ht1sel⟩
      rcases alt1 hafter t1 ht0sel with hqt | hmk
      · exact hqt
      · exact absurd (hmk t1 ht1mem rfl n hn) (not_lt.mpr hnle)
    · have hteq : t1.next_occurrence_at = some nx := by rw [heq2]
      rw [hteq] at hn
      simp only [Option.some.injEq] at hn
      omega
  obtain ⟨hc2, hdb2⟩ := processAll_quiet parse todayD h f2 db1.instances _ db1
    c2 db2 hq (fun p hp => hp) h2
  exact ⟨hc2, hdb2⟩

/-- Witness for C5: a weekly rule (modelled by `after d = d + 7`) anchored
on a Monday (day 0), horizon day 20: the first run creates instances on
days 0, 7, 14 and advances `next_occurrence_at` past the horizon; a
second run with the same horizon creates nothing and leaves the store
unchanged. -/
theorem C5_expansion_idempotent_witness :
    generate_recurring_instances
        (fun s => if s = "W" then some (fun d => some (d + 7)) else none)
        0 20 50
        { templates := [{ id := 1, is_recurring := true, archived := false,
                          recurrence_rule := some "W", recurrence_end_date := none,
                          recurrence_skip_weekends := false,
                          next_occurrence_at := some 0 }],
          instances := [] }
      = some ([(1, 0), (1, 7), (1, 14)],
          { templates := [{ id := 1, is_recurring := true, archived := false,
                            recurrence_rule := some "W", recurrence_end_date := none,
                            recurrence_skip_weekends := false,
                            next_occurrence_at := some 27 }],
            instances := [(1, 14), (1, 7), (1, 0)] })
    ∧ (([] : List (ℕ × Int)) = []
       ∧ ({ templates := [{ id := 1, is_recurring := true, archived := false,
                            recurrence_rule := some "W", recurrence_end_date := none,
                            recurrence_skip_weekends := false,
                            next_occurrence_at := some 27 }],
            instances := [(1, 14), (1, 7), (1, 0)] } : RecDB)
          = { templates := [{ id := 1, is_recurring := true, archived := false,
                              recurrence_rule := some "W", recurrence_end_date := none,
                              recurrence_skip_weekends := false,
                              next_occurrence_at := some 27 }],
              instances := [(1, 14), (1, 7), (1, 0)] }) :=
  ⟨by rfl,
   C5_expansion_idempotent
     (fun s => if s = "W" then some (fun d => some (d + 7)) else none)
     0 20 50 50
     { templates := [{ id := 1, is_recurring := true, archived := false,
                       recurrence_rule := some "W", recurrence_end_date := none,
                       recurrence_skip_weekends := false,
                       next_occurrence_at := some 0 }],
       instances := [] }
     [(1, 0), (1, 7), (1, 14)]
     { templates := [{ id := 1, is_recurring := true, archived := false,
                       recurrence_rule := some "W", recurrence_end_date := none,
                       recurrence_skip_weekends := false,
                       next_occurrence_at := some 27 }],
       instances := [(1, 14), (1, 7), (1, 0)] }
     []
     { templates := [{ id := 1, is_recurring := true, archived := false,
                       recurrence_rule := some "W", recurrence_end_date := none,
                       recurrence_skip_weekends := false,
                       next_occurrence_at := some 27 }],
       instances := [(1, 14), (1, 7), (1, 0)] }
     (by
       intro s r hs d e hr
       simp only [] at hs
       by_cases hw : s = "W"
       · rw [if_pos hw] at hs
         obtain rfl := Option.some_inj.mp hs
         simp only [Option.some.injEq] at hr
         omega
       · rw [if_neg hw] at hs
         exact absurd hs (by simp))
     (by rfl) (by rfl)⟩

/-! ## Claim C6: weekend-skip produces no weekend instances -/

/-- C6: for a template with `recurrence_skip_weekends = true`, no
instance created by `generate_instances_for_task` has a due date on a
Saturday (`weekday = 5`) or Sunday (`weekday = 6`): whenever the cursor
lands on a weekend day it is advanced to the following Monday before any
instance is created, and the skipped date does not count as an
occurrence. -/
theorem C6_skip_weekends_no_weekend_instance
    (parse : String → Option (Int → Option Int)) (todayD h : Int) (fuel : ℕ)
    (t : RecTemplate) (db : RecDB) (cr : List Int) (db' : RecDB)
    (hskip : t.recurrence_skip_weekends = true)
    (hrun : generate_instances_for_task parse todayD h fuel t db = some (cr, db')) :
    ∀ d ∈ cr, weekday d ≠ 5 ∧ weekday d ≠ 6 := by
  unfold generate_instances_for_task at hrun
  cases hrule : t.recurrence_rule with
  | none =>
    rw [hrule] at hrun
    simp only [Option.some.injEq, Prod.mk.injEq] at hrun
    obtain ⟨rfl, rfl⟩ := hrun
    intro d hd
    exact absurd hd (List.not_mem_nil d)
  | some s =>
    rw [hrule] at hrun
    simp only [] at hrun
    by_cases hse : s = ""
    · rw [if_pos hse] at hrun
      simp only [Option.some.injEq, Prod.mk.injEq] at hrun
      obtain ⟨rfl, rfl⟩ := hrun
      intro d hd
      exact absurd hd (List.not_mem_nil d)
    · rw [if_neg hse] at hrun
      cases hp : parse s with
      | none =>
        rw [hp] at hrun
        simp only [] at hrun
        simp only [Option.some.injEq, Prod.mk.injEq] at hrun
        obtain ⟨rfl, rfl⟩ := hrun
        intro d hd
        exact absurd hd (List.not_mem_nil d)
      | some after =>
        rw [hp] at hrun
        simp only [] at hrun
        split at hrun
        · exact absurd hrun (by simp)
        · rename_i created inst2 hg
          simp only [Option.some.injEq, Prod.mk.injEq] at hrun
          obtain ⟨rfl, rfl⟩ := hrun
          rw [hskip] at hg
          intro d hd
          have hwd := genLoop_weekday after t.recurrence_end_date t.id h fuel
            _ _ _ _ hg d hd
          omega

/-- Witness for C6: a daily rule (`after d = d + 1`) with weekend-skip,
anchored on a Monday (day 0), horizon day 13, creates due dates
0-4 and 7-11; day 11 (the last one created, a Thursday) is checked to be
no weekend day. -/
theorem C6_skip_weekends_no_weekend_instance_witness :
    weekday 11 ≠ 5 ∧ weekday 11 ≠ 6 :=
  C6_skip_weekends_no_weekend_instance
    (fun s => if s = "D" then some (fun d => some (d + 1)) else none) 0 13 50
    { id := 2, is_recurring := true, archived := false,
      recurrence_rule := some "D", recurrence_end_date := none,
      recurrence_skip_weekends := true, next_occurrence_at := some 0 }
    { templates := [{ id := 2, is_recurring := true, archived := false,
                      recurrence_rule := some "D", recurrence_end_date := none,
                      recurrence_skip_weekends := true,
                      next_occurrence_at := some 0 }],
      instances := [] }
    [0, 1, 2, 3, 4, 7, 8, 9, 10, 11]
    { templates := [{ id := 2, is_recurring := true, archived := false,
                      recurrence_rule := some "D", recurrence_end_date := none,
                      recurrence_skip_weekends := true,
                      next_occurrence_at := some 14 }],
      instances := [(2, 11), (2, 10), (2, 9), (2, 8), (2, 7), (2, 4), (2, 3),
                    (2, 2), (2, 1), (2, 0)] }
    rfl (by rfl) 11 (by decide)

/-! ## Claim C7: next_occurrence_at is recomputed and persisted -/

/-- C7: after `generate_instances_for_task` processes a template whose
rule parses and has an occurrence strictly after the horizon, the
template row (and any row sharing its id) is persisted with
`next_occurrence_at` equal to that first occurrence after the horizon;
this happens whether or not any instance was created during the call
(the recompute sits after the loop), and the updated template fails the
outer selection filter for the same horizon, so a subsequent call with
the same horizon does not process it again. -/
theorem C7_next_occurrence_persisted (parse : String → Option (Int → Option Int))
    (todayD h : Int) (fuel : ℕ) (t : RecTemplate) (db : RecDB) (cr : List Int)
    (db' : RecDB) (s : String) (after : Int → Option Int) (nx : Int)
    (hs : t.recurrence_rule = some s) (hne : ¬ (s = ""))
    (hparse : parse s = some after) (hnx : after h = some nx)
    (hafter : hafterProp parse)
    (hrun : generate_instances_for_task parse todayD h fuel t db = some (cr, db')) :
    db'.templates = db.templates.map (fun u =>
        if u.id = t.id then { u with next_occurrence_at := some nx } else u)
    ∧ h < nx
    ∧ selTest h { t with next_occurrence_at := some nx } = false := by
  have hgt : h < nx := hafter s after hparse h nx hnx
  unfold generate_instances_for_task at hrun
  rw [hs] at hrun
  simp only [] at hrun
  rw [if_neg hne] at hrun
  rw [hparse] at hrun
  simp only [] at hrun
  split at hrun
  · exact absurd hrun (by simp)
  · rename_i created inst2 hg
    simp only [Option.some.injEq, Prod.mk.injEq] at hrun
    obtain ⟨rfl, rfl⟩ := hrun
    simp only [hnx]
    refine ⟨by simp [setNext], hgt, ?_⟩
    unfold selTest
    simp only []
    rw [decide_eq_false (not_le.mpr hgt), Bool.and_false]

/-- Witness for C7: the weekly template of the C5 scenario: after the run
with horizon 20, the stored template has `next_occurrence_at = 27`
(the first occurrence strictly after day 20 for the modelled rule) and
is no longer selected at horizon 20. -/
theorem C7_next_occurrence_persisted_witness :
    ({ templates := [{ id := 3, is_recurring := true, archived := false,
                       recurrence_rule := some "W", recurrence_end_date := none,
                       recurrence_skip_weekends := false,
                       next_occurrence_at := some 27 }],
       instances := [(3, 14), (3, 7), (3, 0)] } : RecDB).templates
      = ([{ id := 3, is_recurring := true, archived := false,
            recurrence_rule := some "W", recurrence_end_date := none,
            recurrence_skip_weekends := false,
            next_occurrence_at := some 0 }] : List RecTemplate).map (fun u =>
          if u.id = 3 then { u with next_occurrence_at := some (27 : Int) } else u)
    ∧ (20 : Int) < 27
    ∧ selTest 20 { id := 3, is_recurring := true, archived := false,
                   recurrence_rule := some "W", recurrence_end_date := none,
                   recurrence_skip_weekends := false,
                   next_occurrence_at := some 27 } = false :=
  C7_next_occurrence_persisted
    (fun s => if s = "W" then some (fun d => some (d + 7)) else none)
    0 20 50
    { id := 3, is_recurring := true, archived := false,
      recurrence_rule := some "W", recurrence_end_date := none,
      recurrence_skip_weekends := false, next_occurrence_at := some 0 }
    { templates := [{ id := 3, is_recurring := true, archived := false,
                      recurrence_rule := some "W", recurrence_end_date := none,
                      recurrence_skip_weekends := false,
                      next_occurrence_at := some 0 }],
      instances := [] }
    [0, 7, 14]
    { templates := [{ id := 3, is_recurring := true, archived := false,
                      recurrence_rule := some "W", recurrence_end_date := none,
                      recurrence_skip_weekends := false,
                      next_occurrence_at := some 27 }],
      instances := [(3, 14), (3, 7), (3, 0)] }
    "W" (fun d => some (d + 7)) 27
    rfl (by simp) rfl rfl
    (by
      intro s r hs d e hr
      simp only [] at hs
      by_cases hw : s = "W"
      · rw [if_pos hw] at hs
        obtain rfl := Option.some_inj.mp hs
        simp only [Option.some.injEq] at hr
        omega
      · rw [if_neg hw] at hs
        exact absurd hs (by simp))
    (by rfl)

/-! ## Claim C10: absent, empty or unparseable rules are an atomic no-op -/

/-- C10: expanding a single template whose `recurrence_rule` is absent or
empty, or whose rule string fails to parse, is an atomic no-op for that
template: `generate_instances_for_task` returns the empty list and the
store is returned unchanged — no instances are created and the
template's `next_occurrence_at` is not modified. -/
theorem C10_bad_rule_is_noop (parse : String → Option (Int → Option Int))
    (todayD h : Int) (fuel : ℕ) (t : RecTemplate) (db : RecDB)
    (hbad : t.recurrence_rule = none ∨ t.recurrence_rule = some "" ∨
      ∃ s, t.recurrence_rule = some s ∧ parse s = none) :
    generate_instances_for_task parse todayD h fuel t db = some ([], db) :=
  inner_noop_of_badrule parse todayD h fuel t db hbad

/-- Witness for C10 at a template whose rule string does not parse. -/
theorem C10_bad_rule_is_noop_witness :
    generate_instances_for_task (fun _ => none) 0 30 10
      { id := 4, is_recurring := true, archived := false,
        recurrence_rule := some "NOT-A-RULE", recurrence_end_date := none,
        recurrence_skip_weekends := false, next_occurrence_at := some 5 }
      { templates := [{ id := 4, is_recurring := true, archived := false,
                        recurrence_rule := some "NOT-A-RULE",
                        recurrence_end_date := none,
                        recurrence_skip_weekends := false,
                        next_occurrence_at := some 5 }],
        instances := [(4, 5)] }
      = some ([],
          { templates := [{ id := 4, is_recurring := true, archived := false,
                            recurrence_rule := some "NOT-A-RULE",
                            recurrence_end_date := none,
                            recurrence_skip_weekends := false,
                            next_occurrence_at := some 5 }],
            instances := [(4, 5)] }) :=
  C10_bad_rule_is_noop (fun _ => none) 0 30 10 _ _
    (Or.inr (Or.inr ⟨"NOT-A-RULE", rfl, rfl⟩))

/-! ## Claim C8: per-item batch semantics -/

theorem upsert_tally_aux :
    ∀ (items : List WebhookTaskIn) (acc : UpsertResults × List HubTask),
      ((items.foldl upsertStep acc).1.created
          + (items.foldl upsertStep acc).1.updated
        = acc.1.created + acc.1.updated + items.length)
      ∧ (items.foldl upsertStep acc).1.errors = acc.1.errors := by
  intro items
  induction items with
  | nil =>
    intro acc
    exact ⟨by simp, rfl⟩
  | cons inc rest ih =>
    intro acc
    simp only [List.foldl_cons]
    obtain ⟨h1, h2⟩ := ih (upsertStep acc inc)
    have hstep : (upsertStep acc inc).1.created + (upsertStep acc inc).1.updated
        = acc.1.created + acc.1.updated + 1
        ∧ (upsertStep acc inc).1.errors = acc.1.errors := by
      obtain ⟨res, cur⟩ := acc
      cases hfind : findExisting cur inc <;>
        simp [upsertStep, hfind] <;> omega
    constructor
    · rw [h1, hstep.1]
      simp only [List.length_cons]
      omega
    · rw [h2, hstep.2]

/-- C8 (counterexample): `generate_recurring_instances` does not return a
structured tally of per-item failures: its caller-visible result on a
store with one malformed-rule template (the parse fails) is `some []` —
identical to its result on a store with no templates at all, so the
failure is not surfaced in the return value (it is only logged). -/
theorem C8_counterexample :
    (generate_recurring_instances (fun _ => none) 0 10 5
        { templates := [{ id := 9, is_recurring := true, archived := false,
                          recurrence_rule := some "NOT-A-RULE",
                          recurrence_end_date := none,
                          recurrence_skip_weekends := false,
                          next_occurrence_at := some 0 }],
          instances := [] }).map (fun r => r.1) = some []
    ∧ (generate_recurring_instances (fun _ => none) 0 10 5
        { templates := [], instances := [] }).map (fun r => r.1) = some [] := by
  constructor
  · rfl
  · rfl

/-- C8 (amended): per-item isolation holds in both batch operations — a
template whose rule fails to parse contributes nothing and does not
prevent the remaining templates from being processed — and webhook task
ingestion returns a structured tally in which every payload item is
counted exactly once (as created or updated; the per-item exception
handler, unreachable in this total model, appends to `errors` instead of
aborting).  Recurrence expansion, however, returns only the list of
created instances: per-template failures are logged, not returned. -/
theorem C8_isolation_and_webhook_tally :
    (∀ (parse : String → Option (Int → Option Int)) (todayD h : Int)
        (fuel : ℕ) (tBad : RecTemplate) (ts : List RecTemplate) (db : RecDB)
        (s : String),
        tBad.recurrence_rule = some s → parse s = none →
        processAll parse todayD h fuel (tBad :: ts) db =
          processAll parse todayD h fuel ts db)
    ∧ ∀ (db : List HubTask) (items : List WebhookTaskIn),
        (upsert_tasks db items).1.created + (upsert_tasks db items).1.updated
          = items.length
        ∧ (upsert_tasks db items).1.errors = [] := by
  constructor
  · intro parse todayD h fuel tBad ts db s hs hp
    have hnoop := inner_noop_of_badrule parse todayD h fuel tBad db
      (Or.inr (Or.inr ⟨s, hs, hp⟩))
    simp only [processAll, hnoop]
    cases hrest : processAll parse todayD h fuel ts db with
    | none => simp
    | some r =>
      obtain ⟨crs, db3⟩ := r
      simp
  · intro db items
    obtain ⟨h1, h2⟩ := upsert_tally_aux items (⟨0, 0, 0, [], []⟩, db)
    constructor
    · rw [upsert_tasks, h1]
      simp
    · rw [upsert_tasks, h2]

/-- Witness for C8 (amended): a malformed template prepended to an empty
template list changes nothing, and a single-item webhook batch tallies
one created/updated item with no errors. -/
theorem C8_isolation_and_webhook_tally_witness :
    processAll (fun _ => none) 0 10 5
        [{ id := 9, is_recurring := true, archived := false,
           recurrence_rule := some "NOT-A-RULE", recurrence_end_date := none,
           recurrence_skip_weekends := false, next_occurrence_at := some 0 }]
        { templates := [], instances := [] }
      = processAll (fun _ => none) 0 10 5 [] { templates := [], instances := [] }
    ∧ ((upsert_tasks []
          [{ idempotency_key := "k1", source_type := "FIREFLIES",
             source_id := "s1", title := "t", description := none,
             status := TaskStatus.NOT_STARTED, priority := TaskPriority.P2,
             due_date := none, due_time := none, start_date := none,
             timebox_bucket := none, estimated_minutes := none,
             waiting_on := none, blocked_reason := none, tags := [],
             labels := [], raw_source_payload := none }]).1.created
        + (upsert_tasks []
          [{ idempotency_key := "k1", source_type := "FIREFLIES",
             source_id := "s1", title := "t", description := none,
             status := TaskStatus.NOT_STARTED, priority := TaskPriority.P2,
             due_date := none, due_time := none, start_date := none,
             timebox_bucket := none, estimated_minutes := none,
             waiting_on := none, blocked_reason := none, tags := [],
             labels := [], raw_source_payload := none }]).1.updated = 1
       ∧ (upsert_tasks []
          [{ idempotency_key := "k1", source_type := "FIREFLIES",
             source_id := "s1", title := "t", description := none,
             status := TaskStatus.NOT_STARTED, priority := TaskPriority.P2,
             due_date := none, due_time := none, start_date := none,
             timebox_bucket := none, estimated_minutes := none,
             waiting_on := none, blocked_reason := none, tags := [],
             labels := [], raw_source_payload := none }]).1.errors = []) :=
  ⟨C8_isolation_and_webhook_tally.1 (fun _ => none) 0 10 5 _ [] _ "NOT-A-RULE"
     rfl rfl,
   C8_isolation_and_webhook_tally.2 [] _⟩
